import Mathlib

/-!
# Verification of the ACME oneM2M CSE resource-tree engine

A shallow embedding of the resource lifecycle (Resource.py), the container
eviction logic (CNT.py), the Dispatcher request pipelines and the discovery
match algorithm (Dispatcher.py), together with proofs of the specification
claims about them.

Conventions of the embedding:
* Python attribute dictionaries become association lists `AttrMap`
  (`List (String × Val)`); `setAttribute` / `attribute` / `hasAttribute`
  become `setAttr` / `getAttr` / `hasAttr`.
* Timestamps (ISO-8601 strings in the source, compared lexicographically,
  which is order-isomorphic to chronological order) become `Int`.
* The uniform `Result` object of the source becomes `Except Err`, where
  `Err` carries the response status code and the debug string.
* External collaborators (storage, security, notification, registration)
  are modelled by explicit state / oracle parameters.
-/

/-- Response status codes (the closed taxonomy of the source's
`ResponseStatusCode`). Only the codes reached by the embedded code paths
are listed. -/
inductive RSC where
  | OK
  | created
  | updated
  | deleted
  | badRequest
  | contentsUnacceptable
  | operationNotAllowed
  | conflict
  | notFound
  | internalServerError
  | requestTimeout
  | originatorHasNoPrivilege
  | securityAssociationRequired
  | invalidChildResourceType
  | targetNotSubscribable
  | unknown
deriving DecidableEq, Repr

/-- An error result: status code plus debug message, mirroring the failure
side of the source's `Result` object. `Result.errorResult` without an
explicit `rsc` defaults to `badRequest` (etc/Types.py is not under src/;
the default is modelled from the spec's "bad-request-class error"). -/
structure Err where
  rsc : RSC
  dbg : String
deriving DecidableEq, Repr

/-- Resource types (the closed enumeration `ResourceTypes`; only the
variants the embedded code paths mention). `FCNTAnnc` is the announced
flexContainer variant. -/
inductive RT where
  | ACP
  | AE
  | CNT
  | CIN
  | CSEBase
  | FCNT
  | FCNTAnnc
  | SUB
  | CNT_LA
  | CNT_OL
  | GRP_FOPT
  | PCH_PCU
deriving DecidableEq, Repr

/-- `ResourceTypes.isVirtual` of the source: latest/oldest, fan-out point
and polling channel are virtual pseudo-resources. -/
def RT.isVirtualT : RT → Bool
  | RT.CNT_LA => true
  | RT.CNT_OL => true
  | RT.GRP_FOPT => true
  | RT.PCH_PCU => true
  | _ => false

/-- `ResourceTypes.isInstanceResource` of the source (content instances;
of the instance types only CIN appears in the embedded paths). -/
def RT.isInstanceResource : RT → Bool
  | RT.CIN => true
  | _ => false

/-- `ResourceTypes.isAnnounced` of the source, restricted to the modelled
variants: only the announced flexContainer variant is announced here. -/
def RT.isAnnouncedT : RT → Bool
  | RT.FCNTAnnc => true
  | _ => false

/-- Attribute values stored in a resource dictionary. `Val.null` is the
Python `None` sentinel. -/
inductive Val where
  | null
  | num (n : Int)
  | str (s : String)
  | list (xs : List String)
  | bool (b : Bool)
deriving DecidableEq, Repr

/-- Python truthiness test (`not value`): `None`, `0`, the empty string,
the empty list and `False` are falsy. -/
def Val.isFalsy : Val → Bool
  | Val.null => true
  | Val.num n => n == 0
  | Val.str s => s == ""
  | Val.list xs => xs.isEmpty
  | Val.bool b => !b

/-- Coerce a value to a list of strings. The external attribute validator
(not part of the embedded core) guarantees that `acpi` is a list, so the
non-list cases are unreachable on the embedded paths. -/
def Val.asStrList : Val → List String
  | Val.list xs => xs
  | _ => []

/-- A resource attribute dictionary: ordered key/value pairs, like a
Python dict (insertion ordered; keys are unique in well-formed states,
expressed by `keysNodup` hypotheses where proofs need it). -/
abbrev AttrMap := List (String × Val)

/-- `Resource.attribute` / `Utils.findXPath` for a plain key: the value of
the first entry carrying the key. -/
def getAttr (m : AttrMap) (k : String) : Option Val :=
  (List.find? (fun p => p.1 == k) m).map Prod.snd

/-- `Resource.hasAttribute` (`key in self.dict`). -/
def hasAttr (m : AttrMap) (k : String) : Bool :=
  (getAttr m k).isSome

/-- `Resource.setAttribute` with `overwrite = True` (`Utils.setXPath` for a
plain key, i.e. Python dict assignment): replace the value at the key if
present, otherwise append the new entry at the end. -/
def setAttr : AttrMap → String → Val → AttrMap
  | [], k, v => [(k, v)]
  | p :: rest, k, v => if p.1 == k then (k, v) :: rest else p :: setAttr rest k v

/-- Strip `null`-valued attributes, as `Storage.updateResource` does after
persisting a resource ("remove nullified fields from resource"). -/
def stripNulls (m : AttrMap) : AttrMap :=
  List.filter (fun p => p.2 != Val.null) m

/-- Well-formedness of a dictionary: its keys are pairwise distinct
(always true of a Python dict). -/
def keysNodup (m : AttrMap) : Prop :=
  (m.map Prod.fst).Nodup

theorem getAttr_setAttr_self (m : AttrMap) (k : String) (v : Val) :
    getAttr (setAttr m k v) k = some v := by
  induction m with
  | nil => simp [setAttr, getAttr]
  | cons p rest ih =>
    by_cases h : p.1 = k
    · simp [setAttr, getAttr, h]
    · simp only [setAttr, getAttr, h]
      simp only [beq_iff_eq, h, if_false]
      simpa [getAttr, List.find?_cons, h] using ih

theorem getAttr_setAttr_other (m : AttrMap) {k k' : String} (v : Val)
    (hne : k' ≠ k) : getAttr (setAttr m k' v) k = getAttr m k := by
  induction m with
  | nil => simp [setAttr, getAttr, hne]
  | cons p rest ih =>
    by_cases h : p.1 = k'
    · simp [setAttr, getAttr, h, hne, List.find?_cons]
    · simp only [setAttr, beq_iff_eq, h, if_false]
      by_cases hk : p.1 = k
      · simp [getAttr, List.find?_cons, hk]
      · simpa [getAttr, List.find?_cons, hk] using ih

theorem getAttr_cons_self {p : String × Val} {rest : List (String × Val)}
    {k : String} (hp : p.1 = k) : getAttr (p :: rest) k = some p.2 := by
  unfold getAttr
  rw [List.find?_cons_of_pos _ (by simpa using hp)]
  rfl

theorem getAttr_cons_other {p : String × Val} {rest : List (String × Val)}
    {k : String} (hp : p.1 ≠ k) : getAttr (p :: rest) k = getAttr rest k := by
  unfold getAttr
  rw [List.find?_cons_of_neg _ (by simpa using hp)]

theorem mem_keys_setAttr {m : AttrMap} {k k' : String} {v : Val}
    (h : k' ∈ (setAttr m k v).map Prod.fst) :
    k' ∈ m.map Prod.fst ∨ k' = k := by
  induction m with
  | nil => simpa [setAttr] using h
  | cons p rest ih =>
    by_cases hp : p.1 = k
    · simp only [setAttr, beq_iff_eq, hp, if_true, List.map_cons, List.mem_cons] at h
      rcases h with h | h
      · exact Or.inr h
      · exact Or.inl (List.mem_cons_of_mem _ h)
    · simp only [setAttr, beq_iff_eq, hp, if_false, List.map_cons, List.mem_cons] at h
      rcases h with h | h
      · exact Or.inl (List.mem_cons.mpr (Or.inl h))
      · rcases ih h with h' | h'
        · exact Or.inl (List.mem_cons_of_mem _ h')
        · exact Or.inr h'

theorem keysNodup_setAttr {m : AttrMap} (k : String) (v : Val)
    (h : keysNodup m) : keysNodup (setAttr m k v) := by
  induction m with
  | nil => simp [setAttr, keysNodup]
  | cons p rest ih =>
    unfold keysNodup at h ⊢
    simp only [List.map_cons, List.nodup_cons] at h
    by_cases hp : p.1 = k
    · simp only [setAttr, beq_iff_eq, hp, if_true, List.map_cons, List.nodup_cons]
      exact ⟨hp ▸ h.1, h.2⟩
    · simp only [setAttr, beq_iff_eq, hp, if_false, List.map_cons, List.nodup_cons]
      refine ⟨?_, ih h.2⟩
      intro hmem
      rcases mem_keys_setAttr hmem with h' | h'
      · exact h.1 h'
      · exact hp h'

theorem getAttr_eq_none_of_not_mem {m : AttrMap} {k : String}
    (h : k ∉ m.map Prod.fst) : getAttr m k = none := by
  induction m with
  | nil => rfl
  | cons p rest ih =>
    simp only [List.map_cons, List.mem_cons, not_or] at h
    have hp : p.1 ≠ k := fun hc => h.1 hc.symm
    rw [getAttr_cons_other hp]
    exact ih h.2

theorem keysNodup_stripNulls {m : AttrMap} (h : keysNodup m) :
    keysNodup (stripNulls m) :=
  List.Nodup.sublist (List.Sublist.map Prod.fst (List.filter_sublist m)) h

theorem stripNulls_cons_null {p : String × Val} {rest : List (String × Val)}
    (hv : p.2 = Val.null) : stripNulls (p :: rest) = stripNulls rest := by
  unfold stripNulls
  rw [List.filter_cons]
  simp [hv]

theorem stripNulls_cons_keep {p : String × Val} {rest : List (String × Val)}
    (hv : p.2 ≠ Val.null) : stripNulls (p :: rest) = p :: stripNulls rest := by
  unfold stripNulls
  rw [List.filter_cons]
  simp [hv]

theorem getAttr_stripNulls {m : AttrMap} (hnd : keysNodup m) (k : String) :
    getAttr (stripNulls m) k =
      (getAttr m k).bind (fun v => if v = Val.null then none else some v) := by
  induction m with
  | nil => rfl
  | cons p rest ih =>
    unfold keysNodup at hnd
    simp only [List.map_cons, List.nodup_cons] at hnd
    have ih' := ih hnd.2
    by_cases hp : p.1 = k
    · have hrest : getAttr rest k = none :=
        getAttr_eq_none_of_not_mem (hp ▸ hnd.1)
      by_cases hv : p.2 = Val.null
      · rw [stripNulls_cons_null hv, ih', hrest, getAttr_cons_self hp]
        simp [hv]
      · rw [stripNulls_cons_keep hv, getAttr_cons_self hp, getAttr_cons_self hp]
        simp [hv]
    · by_cases hv : p.2 = Val.null
      · rw [stripNulls_cons_null hv, ih', getAttr_cons_other hp]
      · rw [stripNulls_cons_keep hv, getAttr_cons_other hp, getAttr_cons_other hp]
        exact ih'

/-!
## The Resource model: `validate`, `update`, `activate` (Resource.py)

The embedded resource keeps the public oneM2M attributes in `dict`, exactly
as `Resource.dict` does.  Internal `__xxx__` attributes (which never appear
in the wire representation produced by `asDict`) are not modelled; nor is
the external attribute-policy validator `CSE.validator.validateAttributes`
(not part of the core per the spec).
-/

/-- The static environment of one request-processing step: the current
time, the configured maximum expiration delta (`CSE.request.maxExpirationDelta`),
the store of existing access-control-policy resources (stored reference →
canonical CSE-relative unstructured resource ID, as resolved by
`CSE.dispatcher.retrieveResource`), and whether the parent resource is
still retrievable when `update` notifies it at the end. -/
structure Env where
  now : Int
  maxExpirationDelta : Int
  acpStore : List (String × String)
  parentExists : Bool

/-- A resource: type tag, domain-qualified type name (`tpe`, e.g.
"m2m:cnt"), and the public attribute dictionary. -/
structure Res where
  ty : RT
  tpe : String
  dict : AttrMap
deriving DecidableEq, Repr

/-- `Utils.isValidID` applied to a stored attribute value (etc/Utils.py is
not under src/; modelled from the spec's "checks ID well-formedness"): a
string, not empty unless emptiness is allowed, containing no slash. -/
def validIDv (v : Option Val) (allowEmpty : Bool) : Bool :=
  match v with
  | some (Val.str s) => (allowEmpty || !(s == "")) && !(s.data.contains '/')
  | _ => false

/-- `Resource.validate`: ID well-formedness of `ri`, `pi` (may be empty
only for the CSEBase) and `rn`; then expiration-time handling — `et` is
forbidden on the CSEBase, must not lie in the past, and is clamped down to
`now + maxExpirationDelta` when it exceeds that bound. -/
def Res.validateR (env : Env) (r : Res) : Except Err Res :=
  if !(validIDv (getAttr r.dict "ri") false &&
       validIDv (getAttr r.dict "pi") (r.ty == RT.CSEBase) &&
       validIDv (getAttr r.dict "rn") false) then
    Except.error ⟨RSC.badRequest, "Invalid ID"⟩
  else
    match getAttr r.dict "et" with
    | some (Val.num t) =>
      if r.ty == RT.CSEBase then
        Except.error ⟨RSC.badRequest, "expirationTime is not allowed in CSEBase"⟩
      else if t < env.now then
        Except.error ⟨RSC.badRequest, "expirationTime is in the past"⟩
      else if t > env.now + env.maxExpirationDelta then
        Except.ok { r with
          dict := setAttr r.dict "et" (Val.num (env.now + env.maxExpirationDelta)) }
      else Except.ok r
    | _ => Except.ok r

/-- `Resource._checkAndFixACPIreferences` (with `CSE.importer.isImporting`
false, i.e. normal request processing): every referenced ACP resource must
exist, and each reference is replaced by the canonical resource ID of the
referenced ACP.  The first unresolvable reference aborts with a
bad-request error. -/
def checkAndFixACPIreferences (env : Env) : List String → Except Err (List String)
  | [] => Except.ok []
  | ri :: rest =>
    match List.find? (fun p => p.1 == ri) env.acpStore with
    | none => Except.error ⟨RSC.badRequest, "Referenced ACP resource not found: " ++ ri⟩
    | some acp =>
      match checkAndFixACPIreferences env rest with
      | Except.error e => Except.error e
      | Except.ok tail => Except.ok (acp.2 :: tail)

/-- The attribute names skipped by the merge loop of `Resource.update`
("Leave out some attributes"). -/
def excludedFromUpdate : List String := ["ct", "lt", "pi", "ri", "rn", "st", "ty"]

/-- The merge loop of `Resource.update`: iterate over the incoming
attributes in order; skip the excluded keys; regenerate `et` when it is
set to a falsy value; otherwise copy the new value (adding or overwriting). -/
def mergeAttrs (env : Env) (d ua : AttrMap) : AttrMap :=
  ua.foldl (fun acc kv =>
    if kv.1 ∈ excludedFromUpdate then acc
    else if kv.1 == "et" && kv.2.isFalsy then
      setAttr acc "et" (Val.num (env.now + env.maxExpirationDelta))
    else setAttr acc kv.1 kv.2) d

/-- The tail of `Resource.update` shared by all merge branches: refresh
`lt` to "now" when present, run `validate`, persist (`dbUpdate`, whereupon
`Storage.updateResource` strips nulled attributes), and notify the parent
(`retrieveParentResource` / `childUpdated`) — an unretrievable parent is an
internal server error. -/
def Res.refreshLT (env : Env) (r : Res) : Res :=
  if hasAttr r.dict "lt" then { r with dict := setAttr r.dict "lt" (Val.num env.now) }
  else r

/-- Continuation of the update tail (see the comment above `refreshLT`). -/
def Res.postUpdate (env : Env) (r : Res) : Except Err Res :=
  match (r.refreshLT env).validateR env with
  | Except.error e => Except.error e
  | Except.ok r2 =>
    if env.parentExists then Except.ok { r2 with dict := stripNulls r2.dict }
    else Except.error ⟨RSC.internalServerError, "cannot retrieve parent resource"⟩

/-- The part of `Resource.update` operating on the inner attribute map
`updatedAttributes` (`ua`): the acpi-only branch ("Check that acpi, if
present, is the only attribute" — empty list rejected, references checked
and normalized), otherwise the merge loop; both followed by the shared
tail `postUpdate`. -/
def Res.updateWithUA (env : Env) (r : Res) (ua : AttrMap) : Except Err Res :=
  match getAttr ua "acpi" with
  | some v =>
    if !(v == Val.null) then
      match (Val.asStrList v).isEmpty, checkAndFixACPIreferences env (Val.asStrList v) with
      | true, _ => Except.error ⟨RSC.badRequest, "acpi must not be an empty list"⟩
      | false, Except.error e => Except.error e
      | false, Except.ok ys =>
        Res.postUpdate env { r with dict := setAttr r.dict "acpi" (Val.list ys) }
    else Res.postUpdate env { r with dict := mergeAttrs env r.dict ua }
  | none => Res.postUpdate env { r with dict := mergeAttrs env r.dict ua }

/-- `Resource.update`.  The delta `dct` is the request content: a
top-level map from a domain-qualified type name to the inner attribute
map.  The type-envelope check rejects a delta lacking the resource's own
type key (skipped for announced flexContainers, which instead take the
first top-level value); the inner map is then processed by
`updateWithUA`. -/
def Res.update (env : Env) (r : Res) (dct : List (String × AttrMap)) : Except Err Res :=
  if dct.isEmpty then r.postUpdate env
  else
    match List.find? (fun p => p.1 == r.tpe) dct, r.ty == RT.FCNTAnnc with
    | none, false => Except.error ⟨RSC.contentsUnacceptable, "resource types mismatch"⟩
    | found, isAnnc =>
      r.updateWithUA env
        (if isAnnc then ((dct.head?).map Prod.snd).getD []
         else (found.map Prod.snd).getD [])

/-- `Resource.activate` (the parts relevant to an already
schema-validated resource): run `validate(create=True)`, persist
(`dbUpdate` stripping nulled attributes), then — for non-announced
resources with an `acpi` attribute — reject an empty list and check and
normalize the ACP references. -/
def Res.activate (env : Env) (r : Res) : Except Err Res :=
  match r.validateR env with
  | Except.error e => Except.error e
  | Except.ok r1 =>
    let r2 := { r1 with dict := stripNulls r1.dict }
    if !(RT.isAnnouncedT r2.ty) then
      match getAttr r2.dict "acpi" with
      | some v =>
        match (Val.asStrList v).isEmpty, checkAndFixACPIreferences env (Val.asStrList v) with
        | true, _ => Except.error ⟨RSC.badRequest, "acpi must not be an empty list"⟩
        | false, Except.error e => Except.error e
        | false, Except.ok ys =>
          Except.ok { r2 with dict := setAttr r2.dict "acpi" (Val.list ys) }
      | none => Except.ok r2
    else Except.ok r2

/-- `Resource.__eq__`: two resources are equal exactly when their `ri`
attributes agree; no other attribute takes part in the comparison. -/
def Res.eqRes (a b : Res) : Bool :=
  decide (getAttr a.dict "ri" = getAttr b.dict "ri")

theorem keysNodup_mergeAttrs (env : Env) {d : AttrMap} (ua : AttrMap)
    (h : keysNodup d) : keysNodup (mergeAttrs env d ua) := by
  induction ua generalizing d with
  | nil => exact h
  | cons kv rest ih =>
    unfold mergeAttrs at ih ⊢
    rw [List.foldl_cons]
    by_cases h1 : kv.1 ∈ excludedFromUpdate
    · simp only [h1, if_true]
      exact ih h
    · simp only [h1, if_false]
      by_cases h2 : (kv.1 == "et" && kv.2.isFalsy) = true
      · simp only [h2, if_true]
        exact ih (keysNodup_setAttr _ _ h)
      · simp only [h2, Bool.false_eq_true, if_neg, not_false_iff]
        exact ih (keysNodup_setAttr _ _ h)

theorem mergeAttrs_getAttr_not_mem (env : Env) {d ua : AttrMap} {k : String}
    (h : ∀ p ∈ ua, p.1 ≠ k) :
    getAttr (mergeAttrs env d ua) k = getAttr d k := by
  induction ua generalizing d with
  | nil => rfl
  | cons kv rest ih =>
    have hk : kv.1 ≠ k := h kv (List.mem_cons_self _ _)
    have hrest : ∀ p ∈ rest, p.1 ≠ k := fun p hp => h p (List.mem_cons_of_mem _ hp)
    unfold mergeAttrs at ih ⊢
    rw [List.foldl_cons]
    by_cases h1 : kv.1 ∈ excludedFromUpdate
    · simp only [h1, if_true]
      exact ih hrest
    · simp only [h1, if_false]
      by_cases h2 : (kv.1 == "et" && kv.2.isFalsy) = true
      · simp only [h2, if_true]
        have het : "et" ≠ k := by
          have : kv.1 = "et" := by
            have := (Bool.and_eq_true _ _).mp h2
            simpa using this.1
          exact this ▸ hk
        rw [ih hrest, getAttr_setAttr_other _ _ het]
      · simp only [h2, Bool.false_eq_true, if_neg, not_false_iff]
        rw [ih hrest, getAttr_setAttr_other _ _ hk]

theorem mergeAttrs_getAttr_excluded (env : Env) {d : AttrMap} (ua : AttrMap)
    {k : String} (hk : k ∈ excludedFromUpdate) :
    getAttr (mergeAttrs env d ua) k = getAttr d k := by
  induction ua generalizing d with
  | nil => rfl
  | cons kv rest ih =>
    unfold mergeAttrs at ih ⊢
    rw [List.foldl_cons]
    by_cases h1 : kv.1 ∈ excludedFromUpdate
    · simp only [h1, if_true]
      exact ih
    · simp only [h1, if_false]
      by_cases h2 : (kv.1 == "et" && kv.2.isFalsy) = true
      · simp only [h2, if_true]
        have het : "et" ≠ k := by
          intro hc
          rw [← hc] at hk
          exact h1 (by subst hc; simp_all [excludedFromUpdate])
        rw [ih, getAttr_setAttr_other _ _ het]
      · simp only [h2, Bool.false_eq_true, if_neg, not_false_iff]
        have hne : kv.1 ≠ k := fun hc => h1 (hc ▸ hk)
        rw [ih, getAttr_setAttr_other _ _ hne]

theorem mergeAttrs_getAttr_write (env : Env) {d ua : AttrMap} {k : String}
    {v : Val} (hnd : keysNodup ua) (hget : getAttr ua k = some v)
    (hexc : k ∉ excludedFromUpdate) (het : k ≠ "et") :
    getAttr (mergeAttrs env d ua) k = some v := by
  induction ua generalizing d with
  | nil => simp [getAttr] at hget
  | cons kv rest ih =>
    unfold keysNodup at hnd
    simp only [List.map_cons, List.nodup_cons] at hnd
    unfold mergeAttrs at ih ⊢
    rw [List.foldl_cons]
    by_cases hk : kv.1 = k
    · rw [getAttr_cons_self hk] at hget
      obtain rfl : kv.2 = v := by injection hget
      have hnotmem : ∀ p ∈ rest, p.1 ≠ k := by
        intro p hp hc
        exact hnd.1 (hk ▸ hc ▸ List.mem_map_of_mem Prod.fst hp)
      have hexc' : kv.1 ∉ excludedFromUpdate := hk ▸ hexc
      simp only [hexc', if_false]
      have h2 : (kv.1 == "et" && kv.2.isFalsy) = false := by
        have : (kv.1 == "et") = false := by
          simp [hk, het]
        simp [this]
      simp only [h2, Bool.false_eq_true, if_neg, not_false_iff]
      have := mergeAttrs_getAttr_not_mem env (d := setAttr d kv.1 kv.2) hnotmem
      unfold mergeAttrs at this
      rw [this, hk, getAttr_setAttr_self]
    · rw [getAttr_cons_other hk] at hget
      by_cases h1 : kv.1 ∈ excludedFromUpdate
      · simp only [h1, if_true]
        exact ih hnd.2 hget
      · simp only [h1, if_false]
        by_cases h2 : (kv.1 == "et" && kv.2.isFalsy) = true
        · simp only [h2, if_true]
          exact ih hnd.2 hget
        · simp only [h2, Bool.false_eq_true, if_neg, not_false_iff]
          exact ih hnd.2 hget

theorem mergeAttrs_getAttr_etRegen (env : Env) {d ua : AttrMap} {v : Val}
    (hnd : keysNodup ua) (hget : getAttr ua "et" = some v)
    (hfalsy : v.isFalsy = true) :
    getAttr (mergeAttrs env d ua) "et"
      = some (Val.num (env.now + env.maxExpirationDelta)) := by
  induction ua generalizing d with
  | nil => simp [getAttr] at hget
  | cons kv rest ih =>
    unfold keysNodup at hnd
    simp only [List.map_cons, List.nodup_cons] at hnd
    unfold mergeAttrs at ih ⊢
    rw [List.foldl_cons]
    by_cases hk : kv.1 = "et"
    · rw [getAttr_cons_self hk] at hget
      obtain rfl : kv.2 = v := by injection hget
      have hnotmem : ∀ p ∈ rest, p.1 ≠ "et" := by
        intro p hp hc
        exact hnd.1 (hk ▸ hc ▸ List.mem_map_of_mem Prod.fst hp)
      have h1 : kv.1 ∉ excludedFromUpdate := by
        rw [hk]; decide
      simp only [h1, if_false]
      have h2 : (kv.1 == "et" && kv.2.isFalsy) = true := by
        simp [hk, hfalsy]
      simp only [h2, if_true]
      have := mergeAttrs_getAttr_not_mem env
        (d := setAttr d "et" (Val.num (env.now + env.maxExpirationDelta))) hnotmem
      unfold mergeAttrs at this
      rw [this, getAttr_setAttr_self]
    · rw [getAttr_cons_other hk] at hget
      by_cases h1 : kv.1 ∈ excludedFromUpdate
      · simp only [h1, if_true]
        exact ih hnd.2 hget
      · simp only [h1, if_false]
        by_cases h2 : (kv.1 == "et" && kv.2.isFalsy) = true
        · simp only [h2, if_true]
          exact ih hnd.2 hget
        · simp only [h2, Bool.false_eq_true, if_neg, not_false_iff]
          exact ih hnd.2 hget

theorem validateR_ok_shape {env : Env} {r r' : Res}
    (h : r.validateR env = Except.ok r') :
    r'.ty = r.ty ∧ r'.tpe = r.tpe ∧
      (r'.dict = r.dict ∨
       r'.dict = setAttr r.dict "et" (Val.num (env.now + env.maxExpirationDelta))) := by
  unfold Res.validateR at h
  split at h
  · cases h
  · split at h
    · split at h
      · cases h
      · split at h
        · cases h
        · split at h
          · injection h with h
            subst h
            exact ⟨rfl, rfl, Or.inr rfl⟩
          · injection h with h
            subst h
            exact ⟨rfl, rfl, Or.inl rfl⟩
    · injection h with h
      subst h
      exact ⟨rfl, rfl, Or.inl rfl⟩

theorem refreshLT_ty (env : Env) (r : Res) : (r.refreshLT env).ty = r.ty := by
  unfold Res.refreshLT
  split <;> rfl

theorem refreshLT_getAttr (env : Env) (r : Res) {k : String} (hk : k ≠ "lt") :
    getAttr (r.refreshLT env).dict k = getAttr r.dict k := by
  unfold Res.refreshLT
  split
  · exact getAttr_setAttr_other _ _ (fun hc => hk hc.symm)
  · rfl

theorem refreshLT_keysNodup (env : Env) {r : Res} (h : keysNodup r.dict) :
    keysNodup (r.refreshLT env).dict := by
  unfold Res.refreshLT
  split
  · exact keysNodup_setAttr _ _ h
  · exact h

theorem postUpdate_ok_getAttr {env : Env} {r r' : Res} {k : String}
    (hnd : keysNodup r.dict) (hk1 : k ≠ "lt") (hk2 : k ≠ "et")
    (h : r.postUpdate env = Except.ok r') :
    getAttr r'.dict k =
      (getAttr r.dict k).bind (fun v => if v = Val.null then none else some v) := by
  unfold Res.postUpdate at h
  cases hv : (r.refreshLT env).validateR env with
  | error e => rw [hv] at h; cases h
  | ok r2 =>
    rw [hv] at h
    dsimp only at h
    by_cases hp : env.parentExists = true
    · rw [if_pos hp] at h
      injection h with h
      subst h
      obtain ⟨_, _, hdict⟩ := validateR_ok_shape hv
      have hnd1 : keysNodup (r.refreshLT env).dict := refreshLT_keysNodup env hnd
      have hnd2 : keysNodup r2.dict := by
        rcases hdict with hd | hd
        · rw [hd]; exact hnd1
        · rw [hd]; exact keysNodup_setAttr _ _ hnd1
      show getAttr (stripNulls r2.dict) k = _
      rw [getAttr_stripNulls hnd2 k]
      congr 1
      rcases hdict with hd | hd
      · rw [hd, refreshLT_getAttr env r hk1]
      · rw [hd, getAttr_setAttr_other _ _ (fun hc => hk2 hc.symm),
            refreshLT_getAttr env r hk1]
    · rw [if_neg hp] at h
      cases h

theorem postUpdate_ok_getAttr_et {env : Env} {r r' : Res}
    (hnd : keysNodup r.dict)
    (ht : getAttr r.dict "et" = some (Val.num (env.now + env.maxExpirationDelta)))
    (h : r.postUpdate env = Except.ok r') :
    getAttr r'.dict "et" = some (Val.num (env.now + env.maxExpirationDelta)) := by
  unfold Res.postUpdate at h
  cases hv : (r.refreshLT env).validateR env with
  | error e => rw [hv] at h; cases h
  | ok r2 =>
    rw [hv] at h
    dsimp only at h
    by_cases hp : env.parentExists = true
    · rw [if_pos hp] at h
      injection h with h
      subst h
      obtain ⟨_, _, hdict⟩ := validateR_ok_shape hv
      have hnd1 : keysNodup (r.refreshLT env).dict := refreshLT_keysNodup env hnd
      have hnd2 : keysNodup r2.dict := by
        rcases hdict with hd | hd
        · rw [hd]; exact hnd1
        · rw [hd]; exact keysNodup_setAttr _ _ hnd1
      have h1 : getAttr (r.refreshLT env).dict "et"
          = some (Val.num (env.now + env.maxExpirationDelta)) := by
        rw [refreshLT_getAttr env r (by decide)]
        exact ht
      have h2 : getAttr r2.dict "et"
          = some (Val.num (env.now + env.maxExpirationDelta)) := by
        rcases hdict with hd | hd
        · rw [hd]; exact h1
        · rw [hd]; exact getAttr_setAttr_self _ _ _
      show getAttr (stripNulls r2.dict) "et" = _
      rw [getAttr_stripNulls hnd2 "et", h2]
      rfl
    · rw [if_neg hp] at h
      cases h

/-!
## Container limits and eviction (CNT.py)

`CNT._validateChildren` re-reads all `<cin>` children from storage, sorts
them by creation time ascending, evicts the oldest while the
max-number-of-instances (`mni`) or max-byte-size (`mbs`) limit is
exceeded, and persists the recomputed `cni`/`cbs` counters.
-/

/-- A raw content-instance record as read back from storage: resource ID,
creation time and content size (`cs`). -/
structure CinR where
  ri : String
  ct : Int
  cs : Int
deriving DecidableEq, Repr

/-- The container state relevant to `_validateChildren`: the optional
limits and the two counters. -/
structure CntR where
  mni : Option Int
  mbs : Option Int
  cni : Int
  cbs : Int
deriving DecidableEq, Repr

/-- Stable insertion into a ct-ascending list (an equal creation time goes
after the existing entries, as Python's stable `sorted` does). -/
def insertByCt (c : CinR) : List CinR → List CinR
  | [] => [c]
  | d :: ds => if c.ct < d.ct then c :: d :: ds else d :: insertByCt c ds

/-- `sorted(storage.directChildResources(...), key = lambda x: x['ct'])`. -/
def sortByCt (l : List CinR) : List CinR :=
  l.foldr insertByCt []

/-- Summed content sizes (`sum([each['cs'] for each in cinsRaw])`). -/
def sumCs (l : List CinR) : Int :=
  (l.map CinR.cs).sum

/-- The `mni` eviction loop of `_validateChildren`:
`while cni > mni and cni > 0: delete oldest; cni -= 1`. -/
def mniLoop (mni : Int) : List CinR → List CinR
  | [] => []
  | c :: rest =>
    if ((rest.length : Int) + 1 > mni) ∧ ((rest.length : Int) + 1 > 0) then
      mniLoop mni rest
    else c :: rest

/-- The `mbs` eviction loop of `_validateChildren`:
`while cbs > mbs and cbs > 0: cbs -= oldest.cs; delete oldest`. -/
def mbsLoop (mbs : Int) : List CinR → List CinR
  | [] => []
  | c :: rest =>
    if sumCs (c :: rest) > mbs ∧ sumCs (c :: rest) > 0 then mbsLoop mbs rest
    else c :: rest

/-- `CNT._validateChildren`: when no limit is set the counters are left
untouched (early return); otherwise sort the instances by creation time,
run the `mni` loop, then the `mbs` loop, and store the final count and
summed size in `cni`/`cbs`.  Returns the updated container together with
the surviving instances (creation-time ascending). -/
def validateChildren (cnt : CntR) (cins : List CinR) : CntR × List CinR :=
  if cnt.mni.isNone ∧ cnt.mbs.isNone then (cnt, cins)
  else
    let sorted := sortByCt cins
    let afterMni := match cnt.mni with
      | some mni => mniLoop mni sorted
      | none => sorted
    let afterMbs := match cnt.mbs with
      | some mbs => mbsLoop mbs afterMni
      | none => afterMni
    ({ cnt with cni := afterMbs.length, cbs := sumCs afterMbs }, afterMbs)

/-- `CNT.childAdded` for a `<cin>` child with no max-instance-age set
(`mia = None`): after the monitoring hooks the container re-validates
itself, which runs `_validateChildren` (the `instanceAdded` counter
bump from the missing `ContainerResource` base class is irrelevant here,
since `_validateChildren` overwrites both counters whenever a limit is
set). -/
def cntChildAdded (cnt : CntR) (cins : List CinR) : CntR × List CinR :=
  validateChildren cnt cins

/-- One sequential CREATE of a `<cin>` below the container: storage gains
the new child, then the parent's `childAdded` hook runs. -/
def createCin (st : CntR × List CinR) (c : CinR) : CntR × List CinR :=
  cntChildAdded st.1 (st.2 ++ [c])

/-!
## Discovery: filter matching and the recursive walk (Dispatcher.py)
-/

/-- The view of a resource taken by `Dispatcher._matchResource`: type tag,
the optional timestamps and state tag, labels (`None` and `[]` are both
falsy in the source, so both are the empty list here), content size and
content format for instances, plus the plain attributes used by the
attribute-filter loop. -/
structure DRes where
  ri : String
  ty : RT
  ct : Option Int
  lt : Option Int
  st : Option Int
  et : Option Int
  lbl : List String
  cs : Option Int
  cnf : Option String
  attrs : List (String × String)
deriving DecidableEq, Repr

/-- `FilterOperation`. -/
inductive FO where
  | AND
  | OR
deriving DecidableEq, Repr

/-- `FilterCriteria`: the condition attributes used by `_matchResource`
(each `none` when not provided) and the plain attribute filters.  The
wildcard branch of the attribute matching (`TextTools.simpleMatch`) is not
modelled; attribute filter values are matched by string equality, which is
the non-wildcard branch of the source. -/
structure FC where
  tyF : Option (List RT) := none
  crb : Option Int := none
  cra : Option Int := none
  ms : Option Int := none
  us : Option Int := none
  sts : Option Int := none
  stb : Option Int := none
  exb : Option Int := none
  exa : Option Int := none
  lblF : Option (List String) := none
  sza : Option Int := none
  szb : Option Int := none
  ctyF : Option (List String) := none
  attrs : List (String × String) := []
deriving Repr

/-- `Dispatcher._matchResource`: the additive match score `found`.  Each
multi-valued category (type list, label list, content-format list) adds
its full value count when any one of its values matches; every other
satisfied condition adds one. -/
def matchScore (fc : FC) (r : DRes) : Nat :=
  (match fc.tyF with
   | some tys => if r.ty ∈ tys then tys.length else 0
   | none => 0)
  +
  (match r.ct with
   | some ct =>
     (match fc.crb with | some crb => if ct < crb then 1 else 0 | none => 0)
     + (match fc.cra with | some cra => if ct > cra then 1 else 0 | none => 0)
   | none => 0)
  +
  (match r.lt with
   | some lt =>
     (match fc.ms with | some ms => if lt > ms then 1 else 0 | none => 0)
     + (match fc.us with | some us => if lt < us then 1 else 0 | none => 0)
   | none => 0)
  +
  (match r.st with
   | some st =>
     (match fc.sts with | some sts => if st > sts then 1 else 0 | none => 0)
     + (match fc.stb with | some stb => if st < stb then 1 else 0 | none => 0)
   | none => 0)
  +
  (match r.et with
   | some et =>
     (match fc.exb with | some exb => if et < exb then 1 else 0 | none => 0)
     + (match fc.exa with | some exa => if et > exa then 1 else 0 | none => 0)
   | none => 0)
  +
  (match fc.lblF with
   | some lbls =>
     if ¬ r.lbl.isEmpty ∧ (lbls.any (fun l => r.lbl.contains l)) then lbls.length
     else 0
   | none => 0)
  +
  (if RT.isInstanceResource r.ty then
     match r.cs with
     | some cs =>
       (match fc.sza with | some sza => if cs ≥ sza then 1 else 0 | none => 0)
       + (match fc.szb with | some szb => if cs < szb then 1 else 0 | none => 0)
     | none => 0
   else 0)
  +
  (if r.ty = RT.CIN then
     match fc.ctyF with
     | some ctys =>
       (match r.cnf with
        | some cnf => if ctys.contains cnf then ctys.length else 0
        | none => 0)
     | none => 0
   else 0)
  +
  ((fc.attrs.map (fun nv =>
      match List.find? (fun p => p.1 == nv.1) r.attrs with
      | some p => if p.2 = nv.2 then 1 else 0
      | none => 0)).sum)

/-- The final inclusion test of `_matchResource`: under OR a positive
score suffices; under AND the score must equal the precomputed total
condition count `allLen`. -/
def matchResource (fc : FC) (fo : FO) (allLen : Nat) (r : DRes) : Bool :=
  let found := matchScore fc r
  (fo == FO.OR && decide (found > 0)) || (fo == FO.AND && allLen == found)

/-- Modelled from the spec: `FilterCriteria.criteriaAttributes` lives in
etc/Types.py, which is not under src/; per the spec it is the set of
condition attributes actually provided, so its length is the number of
provided conditions. -/
def FC.criteriaCount (fc : FC) : Nat :=
  (if fc.tyF.isSome then 1 else 0) + (if fc.crb.isSome then 1 else 0)
  + (if fc.cra.isSome then 1 else 0) + (if fc.ms.isSome then 1 else 0)
  + (if fc.us.isSome then 1 else 0) + (if fc.sts.isSome then 1 else 0)
  + (if fc.stb.isSome then 1 else 0) + (if fc.exb.isSome then 1 else 0)
  + (if fc.exa.isSome then 1 else 0) + (if fc.lblF.isSome then 1 else 0)
  + (if fc.sza.isSome then 1 else 0) + (if fc.szb.isSome then 1 else 0)
  + (if fc.ctyF.isSome then 1 else 0)

/-- The `allLen` computation of `Dispatcher.discoverResources`: the number
of attribute filters, plus — when any condition is provided — the number
of provided conditions, with the multi-valued `ty`/`cty`/`lbl` lists each
contributing their value count (compensating the one already counted). -/
def computeAllLen (fc : FC) : Nat :=
  let base := fc.attrs.length
  if fc.criteriaCount > 0 then
    base + fc.criteriaCount
      + (match fc.tyF with | some v => v.length - 1 | none => 0)
      + (match fc.ctyF with | some v => v.length - 1 | none => 0)
      + (match fc.lblF with | some v => v.length - 1 | none => 0)
  else base

/-- A resource subtree, as walked by `Dispatcher._discoverResources`. -/
inductive DTree where
  | node (res : DRes) (children : List DTree)

/-- The resource at the root of a subtree. -/
def DTree.res : DTree → DRes
  | DTree.node r _ => r

/-- The direct children of a subtree root. -/
def DTree.children : DTree → List DTree
  | DTree.node _ cs => cs

/-- `Dispatcher._discoverResources`: returns `[]` once the level is
exhausted; otherwise walks the direct children in order, skipping virtual
resources, appending a child when it matches the filter *and* the access
check `acc` (the external `CSE.security.hasAccess`) passes, and always
recursing underneath the child with one level less. -/
def discoverRec (acc : DRes → Bool) (fc : FC) (fo : FO) (allLen : Nat) :
    Nat → DTree → List DRes
  | 0, _ => []
  | Nat.succ level, t =>
    t.children.foldl (fun res child =>
      if RT.isVirtualT child.res.ty then res
      else
        res ++ (if matchResource fc fo allLen child.res && acc child.res then
                  [child.res] else [])
            ++ discoverRec acc fc fo allLen level child) []

/-- `Dispatcher.discoverResources` with its defaults: level defaults to
unbounded (`sys.maxsize`, here a caller-supplied bound), the combination
mode to AND, the page offset to 1 and the limit to unbounded; the offset
and limit slice only the top-level children list. -/
def discoverResources (acc : DRes → Bool) (fc : FC) (foOpt : Option FO)
    (lvl : Nat) (ofstOpt : Option Nat) (limOpt : Option Nat) (root : DTree) :
    List DRes :=
  let fo := foOpt.getD FO.AND
  let ofst := ofstOpt.getD 1
  let lim := limOpt.getD root.children.length
  let allLen := computeAllLen fc
  let dcrs := (root.children.drop (ofst - 1)).take lim
  discoverRec acc fc fo allLen lvl (DTree.node root.res dcrs)

/-!
## The CREATE pipeline: duplicate check and rollback (Dispatcher.py)
-/

/-- The store and registration state seen by the CREATE pipeline: the
`(ri, srn)` pairs of the persisted resources, and the identifiers for
which the Registration collaborator currently holds a reservation. -/
structure CrState where
  store : List (String × String)
  reservations : List String
deriving DecidableEq, Repr

/-- `Storage.hasResource(ri = ...)`. -/
def storeHasRi (store : List (String × String)) (ri : String) : Bool :=
  store.any (fun p => p.1 == ri)

/-- `Storage.hasResource(srn = ...)`. -/
def storeHasSrn (store : List (String × String)) (srn : String) : Bool :=
  store.any (fun p => p.2 == srn)

/-- The outcomes of the collaborator calls made by
`Dispatcher.createLocalResource` after the record has been written:
whether the parent admits the child type (`canHaveChild`), the result of
`resource.activate(...)` (`none` = success), whether the follow-up
`resource.dbUpdate()` write succeeds (its status flag — the pipeline's
guard inspects the attached resource instead, see `dbUpdateResult`), and
whether the parent resource is still present when it is re-read
(`parentResource.dbReload()`) before the `childAdded` notification. -/
structure CreateOracle where
  canHaveChild : Bool
  childIsSUB : Bool
  activateRes : Option Err
  dbUpdateOk : Bool
  parentPresentAfter : Bool
deriving Repr

/-- The `Result` of the post-activate `resource.dbUpdate()` as
`Storage.updateResource` builds it: the status flag together with the
attached resource.  The resource is attached in BOTH branches — on a
failed write the source returns
`Result(status = False, resource = resource, rsc = UNKNOWN)` — so the
second component is never `none`. -/
def dbUpdateResult (ok : Bool) (ri : String) : Bool × Option String :=
  (ok, some ri)

/-- `Dispatcher.createLocalResource` for a new resource `(ri, srn)`: check
`canHaveChild`, write the record (`dbCreate(overwrite = False)`, which
itself refuses duplicates with a conflict — `Storage.createResource`),
activate, write again, re-read the parent.  An activation failure and a
vanished parent delete the just-written record (`dbDelete` /
`deleteLocalResource`) and return the failure; the post-activate write is
guarded by `if not (res := resource.dbUpdate()).resource:` — a test of
the *attached resource*, not of the status — and since
`Storage.updateResource` attaches the resource even when the write fails,
that rollback branch is dead and a failed post-activate write is
swallowed. -/
def createLocalResource (o : CreateOracle) (ri srn : String)
    (store : List (String × String)) :
    Except Err Unit × List (String × String) :=
  if !o.canHaveChild then
    if o.childIsSUB then
      (Except.error ⟨RSC.targetNotSubscribable, "Parent resource is not subscribable"⟩, store)
    else
      (Except.error ⟨RSC.invalidChildResourceType, "Invalid child resource type"⟩, store)
  else if storeHasRi store ri || storeHasSrn store srn then
    (Except.error ⟨RSC.conflict, "Resource already exists"⟩, store)
  else
    let store1 := store ++ [(ri, srn)]
    match o.activateRes with
    | some e => (Except.error e, store1.filter (fun p => !(p.1 == ri)))
    | none =>
      if (dbUpdateResult o.dbUpdateOk ri).2.isNone then
        (Except.error ⟨RSC.unknown, "database update failed"⟩,
         store1.filter (fun p => !(p.1 == ri)))
      else if !o.parentPresentAfter then
        (Except.error ⟨RSC.internalServerError, "Parent resource not found. Probably removed in between?"⟩,
         store1.filter (fun p => !(p.1 == ri)))
      else (Except.ok (), store1)

/-- The tail of `Dispatcher.processCreateRequest` once the parent has been
retrieved and permissions checked: `checkResourceCreation` places the
registration reservation (the reservation itself is modelled from the
spec — the Registration collaborator is external), the pipeline refuses an
`ri` or `srn` that already exists with a conflict, and a failing
`createLocalResource` is followed by `checkResourceDeletion`, which
releases the reservation. -/
def processCreateTail (o : CreateOracle) (ri srn : String) (st : CrState) :
    Except Err Unit × CrState :=
  let st1 : CrState := { st with reservations := ri :: st.reservations }
  if storeHasRi st.store ri then
    (Except.error ⟨RSC.conflict, "Resource with ri already exists"⟩, st1)
  else if storeHasSrn st.store srn then
    (Except.error ⟨RSC.conflict, "Resource with structured id already exists"⟩, st1)
  else
    match createLocalResource o ri srn st1.store with
    | (Except.ok _, store2) => (Except.ok (), { st1 with store := store2 })
    | (Except.error e, store2) =>
      (Except.error e,
       { store := store2, reservations := st1.reservations.erase ri })

/-- `Resource.__init__`: the resource ID is taken from the request content
when the client supplied one and generated (`Utils.uniqueRI`) otherwise. -/
def resolveRi (clientRi : Option String) (generated : String) : String :=
  clientRi.getD generated

/-!
## Latest/oldest instance retrieval (CNT_LA.py, Dispatcher.py, StoragePostgres.py)
-/

/-- A stored resource row as seen by the latest/oldest SQL queries. -/
structure StRow where
  ri : String
  pi : String
  ty : RT
  ct : Int
  lt : Int
deriving DecidableEq, Repr

/-- `StoragePostgres.retrieveLatestResource`:
`SELECT ... WHERE ty = {ty} AND pi = {pi} ORDER BY resources.lt DESC LIMIT 1`
— a row with maximal last-modified time among the children of `pi` with
the given type (ties are unspecified in SQL; the fold keeps the first
maximal row). -/
def latestStep (acc : Option StRow) (r : StRow) : Option StRow :=
  match acc with
  | none => some r
  | some a => if r.lt > a.lt then some r else some a

def retrieveLatestResource (rows : List StRow) (ty : RT) (pi : String) :
    Option StRow :=
  (rows.filter (fun r => r.ty == ty && r.pi == pi)).foldl latestStep none

/-- `Dispatcher.retrieveLatestOldestInstance` with `oldest = False`. -/
def retrieveLatestOldestInstance (rows : List StRow) (pi : String) (ty : RT) :
    Option StRow :=
  retrieveLatestResource rows ty pi

/-- Modelled from the spec: `VirtualResource.retrieveLatestOldest` is not
under src/ (only its caller `CNT_LA.handleRetrieveRequest` is); per the
spec, a RETRIEVE of a `<latest>` virtual resource returns the latest
content instance of the parent container, or not-found when the container
has none.  The lookup itself is `Dispatcher.retrieveLatestOldestInstance`,
which is under src/. -/
def retrieveLatestOldest (rows : List StRow) (pi : String) : Except Err StRow :=
  match retrieveLatestOldestInstance rows pi RT.CIN with
  | none => Except.error ⟨RSC.notFound, "no instance for latest"⟩
  | some r => Except.ok r

/-- `CNT_LA.handleRetrieveRequest`: delegate to `retrieveLatestOldest`
for the parent container (`oldest = False`, type `CIN`). -/
def CNT_LA.handleRetrieveRequest (rows : List StRow) (parentRi : String) :
    Except Err StRow :=
  retrieveLatestOldest rows parentRi

/-- `CNT_LA.handleCreateRequest`: always operation-not-allowed. -/
def CNT_LA.handleCreateRequest (id originator : String) : Except Err StRow :=
  Except.error ⟨RSC.operationNotAllowed,
    "CREATE operation not allowed for latest resource type"⟩

/-- `CNT_LA.handleUpdateRequest`: always operation-not-allowed. -/
def CNT_LA.handleUpdateRequest (id originator : String) : Except Err StRow :=
  Except.error ⟨RSC.operationNotAllowed,
    "UPDATE operation not allowed for latest resource type"⟩

theorem foldl_latestStep_pick {m : StRow} :
    ∀ (l : List StRow) (acc : Option StRow),
    (∀ r ∈ l, r = m ∨ r.lt < m.lt) →
    (acc = none ∨ acc = some m ∨ ∃ a, a.lt < m.lt ∧ acc = some a) →
    (m ∈ l ∨ acc = some m) →
    l.foldl latestStep acc = some m := by
  intro l
  induction l with
  | nil =>
    intro acc _ _ htrig
    rcases htrig with h | h
    · cases h
    · exact h
  | cons r rest ih =>
    intro acc hall hacc htrig
    rw [List.foldl_cons]
    have hall' : ∀ x ∈ rest, x = m ∨ x.lt < m.lt :=
      fun x hx => hall x (List.mem_cons_of_mem _ hx)
    by_cases hr : r = m
    · subst hr
      have hstep : latestStep acc r = some r := by
        rcases hacc with h | h | ⟨a, ha, h⟩
        · rw [h]; rfl
        · rw [h]
          unfold latestStep
          simp
        · rw [h]
          unfold latestStep
          simp [ha]
      rw [hstep]
      exact ih (some r) hall' (Or.inr (Or.inl rfl)) (Or.inr rfl)
    · have hrlt : r.lt < m.lt := by
        rcases hall r (List.mem_cons_self _ _) with h | h
        · exact absurd h hr
        · exact h
      have hacc' : latestStep acc r = none ∨ latestStep acc r = some m ∨
          ∃ a, a.lt < m.lt ∧ latestStep acc r = some a := by
        rcases hacc with h | h | ⟨a, ha, h⟩
        · rw [h]
          exact Or.inr (Or.inr ⟨r, hrlt, rfl⟩)
        · rw [h]
          unfold latestStep
          have : ¬ (r.lt > m.lt) := by omega
          simp [this]
        · rw [h]
          unfold latestStep
          by_cases hgt : r.lt > a.lt
          · simp only [hgt, if_true]
            exact Or.inr (Or.inr ⟨r, hrlt, rfl⟩)
          · simp only [hgt, if_false]
            exact Or.inr (Or.inr ⟨a, ha, rfl⟩)
      have htrig' : m ∈ rest ∨ latestStep acc r = some m := by
        rcases htrig with h | h
        · rcases List.mem_cons.mp h with h' | h'
          · exact absurd h'.symm hr
          · exact Or.inl h'
        · rw [h]
          unfold latestStep
          have : ¬ (r.lt > m.lt) := by omega
          simp [this]
      exact ih (latestStep acc r) hall' hacc' htrig'

theorem store_rollback {store : List (String × String)} {ri : String}
    (srn : String) (h : storeHasRi store ri = false) :
    (store ++ [(ri, srn)]).filter (fun p => !(p.1 == ri)) = store := by
  rw [List.filter_append]
  have h1 : store.filter (fun p => !(p.1 == ri)) = store := by
    apply List.filter_eq_self.mpr
    intro p hp
    unfold storeHasRi at h
    have := List.any_eq_false.mp h p hp
    simpa using this
  rw [h1]
  simp

theorem checkAndFix_error_of_missing (env : Env) :
    ∀ {xs : List String}, (∃ x ∈ xs, List.find? (fun p => p.1 == x) env.acpStore = none) →
    ∃ dbg, checkAndFixACPIreferences env xs = Except.error ⟨RSC.badRequest, dbg⟩ := by
  intro xs
  induction xs with
  | nil =>
    rintro ⟨x, hx, _⟩
    cases hx
  | cons x0 rest ih =>
    rintro ⟨x, hx, hmiss⟩
    unfold checkAndFixACPIreferences
    cases hfind : List.find? (fun p => p.1 == x0) env.acpStore with
    | none => exact ⟨"Referenced ACP resource not found: " ++ x0, rfl⟩
    | some acp =>
      have hxrest : x ∈ rest := by
        rcases List.mem_cons.mp hx with h | h
        · subst h
          rw [hfind] at hmiss
          cases hmiss
        · exact h
      obtain ⟨dbg, hdbg⟩ := ih ⟨x, hxrest, hmiss⟩
      rw [hdbg]
      exact ⟨dbg, rfl⟩

theorem checkAndFix_ok_forall2 (env : Env) :
    ∀ {xs ys : List String}, checkAndFixACPIreferences env xs = Except.ok ys →
    List.Forall₂ (fun x y => ∃ c, List.find? (fun p => p.1 == x) env.acpStore = some c
      ∧ c.2 = y) xs ys := by
  intro xs
  induction xs with
  | nil =>
    intro ys h
    unfold checkAndFixACPIreferences at h
    injection h with h
    subst h
    exact List.Forall₂.nil
  | cons x0 rest ih =>
    intro ys h
    unfold checkAndFixACPIreferences at h
    cases hfind : List.find? (fun p => p.1 == x0) env.acpStore with
    | none =>
      rw [hfind] at h
      cases h
    | some acp =>
      rw [hfind] at h
      cases hrec : checkAndFixACPIreferences env rest with
      | error e =>
        rw [hrec] at h
        cases h
      | ok tail =>
        rw [hrec] at h
        injection h with h
        subst h
        exact List.Forall₂.cons ⟨acp, hfind, rfl⟩ (ih hrec)

theorem update_merge_branch (env : Env) (r : Res)
    {dct : List (String × AttrMap)} {ua : AttrMap}
    (hne : dct.isEmpty = false)
    (hfind : List.find? (fun p => p.1 == r.tpe) dct = some (r.tpe, ua))
    (hty : (r.ty == RT.FCNTAnnc) = false)
    (hacpi : getAttr ua "acpi" = none ∨ getAttr ua "acpi" = some Val.null) :
    Res.update env r dct
      = Res.postUpdate env { r with dict := mergeAttrs env r.dict ua } := by
  unfold Res.update
  rw [if_neg (by rw [hne]; exact Bool.false_ne_true)]
  rw [hfind, hty]
  simp only [Bool.false_eq_true, if_false, Option.map_some', Option.getD_some]
  unfold Res.updateWithUA
  rcases hacpi with h | h
  · rw [h]
  · rw [h]
    simp

theorem update_acpi_branch (env : Env) (r : Res)
    {dct : List (String × AttrMap)} {ua : AttrMap} {xs : List String}
    (hne : dct.isEmpty = false)
    (hfind : List.find? (fun p => p.1 == r.tpe) dct = some (r.tpe, ua))
    (hty : (r.ty == RT.FCNTAnnc) = false)
    (hacpi : getAttr ua "acpi" = some (Val.list xs)) :
    Res.update env r dct
      = match xs.isEmpty, checkAndFixACPIreferences env xs with
        | true, _ => Except.error ⟨RSC.badRequest, "acpi must not be an empty list"⟩
        | false, Except.error e => Except.error e
        | false, Except.ok ys =>
          Res.postUpdate env { r with dict := setAttr r.dict "acpi" (Val.list ys) } := by
  unfold Res.update
  rw [if_neg (by rw [hne]; exact Bool.false_ne_true)]
  rw [hfind, hty]
  simp only [Bool.false_eq_true, if_false, Option.map_some', Option.getD_some]
  unfold Res.updateWithUA
  rw [hacpi]
  have hlist : (!(Val.list xs == Val.null)) = true := by simp
  simp only [hlist, if_true, Val.asStrList]

/-!
## Claims
-/

/-- C9: implicit update type-envelope check — for every resource whose
type is not an announced flexContainer, `update()` with a non-empty delta
whose top level lacks the resource's own domain:type key returns a
contents-unacceptable error ("resource types mismatch"); the source
returns before performing any mutation, so the attribute map is unchanged
(in this pure embedding, an error result carries no updated resource). -/
theorem C9_update_type_envelope (env : Env) (r : Res)
    (dct : List (String × AttrMap))
    (hne : dct.isEmpty = false)
    (hfind : List.find? (fun p => p.1 == r.tpe) dct = none)
    (hty : r.ty ≠ RT.FCNTAnnc) :
    Res.update env r dct
      = Except.error ⟨RSC.contentsUnacceptable, "resource types mismatch"⟩ := by
  unfold Res.update
  rw [if_neg (by rw [hne]; exact Bool.false_ne_true)]
  have hty' : (r.ty == RT.FCNTAnnc) = false := by simpa using hty
  rw [hfind, hty']

/-- Witness for C9 at a concrete input: a container updated with a delta
carrying only an "m2m:ae" envelope. -/
theorem C9_update_type_envelope_witness :
    Res.update ⟨0, 100, [], true⟩ ⟨RT.CNT, "m2m:cnt", [("ri", Val.str "c1")]⟩
        [("m2m:ae", [])]
      = Except.error ⟨RSC.contentsUnacceptable, "resource types mismatch"⟩ :=
  C9_update_type_envelope ⟨0, 100, [], true⟩ ⟨RT.CNT, "m2m:cnt", [("ri", Val.str "c1")]⟩
    [("m2m:ae", [])] (by decide) (by decide) (by decide)

/-- C10: resource equality is identity by `ri` only — `a == b` holds
exactly when the `ri` attributes agree (the `isinstance` guard of the
source is the typing of `Res` here), so two resources with the same `ri`
but entirely different types and attribute maps compare equal. -/
theorem C10_eq_by_ri_only :
    (∀ a b : Res, Res.eqRes a b = true ↔ getAttr a.dict "ri" = getAttr b.dict "ri")
    ∧ Res.eqRes
        ⟨RT.CNT, "m2m:cnt", [("ri", Val.str "x"), ("rn", Val.str "a"), ("mni", Val.num 3)]⟩
        ⟨RT.AE, "m2m:ae", [("ri", Val.str "x"), ("lbl", Val.list ["z"])]⟩ = true := by
  constructor
  · intro a b
    unfold Res.eqRes
    exact decide_eq_true_iff
  · decide

/-- C7: the virtual latest resource rejects CREATE and UPDATE with
operation-not-allowed; RETRIEVE returns the most-recently-created content
instance of the parent container (the storage query orders by `lt`, which
coincides with `ct` for content instances, since instance resources are
never updated), or not-found when the container has no instance child. -/
theorem C7_latest_virtual_guard :
    (∀ id originator, CNT_LA.handleCreateRequest id originator
        = Except.error ⟨RSC.operationNotAllowed,
            "CREATE operation not allowed for latest resource type"⟩)
    ∧ (∀ id originator, CNT_LA.handleUpdateRequest id originator
        = Except.error ⟨RSC.operationNotAllowed,
            "UPDATE operation not allowed for latest resource type"⟩)
    ∧ (∀ (rows : List StRow) (pi : String),
        (∀ r ∈ rows, ¬(r.ty = RT.CIN ∧ r.pi = pi)) →
        CNT_LA.handleRetrieveRequest rows pi
          = Except.error ⟨RSC.notFound, "no instance for latest"⟩)
    ∧ (∀ (rows : List StRow) (pi : String) (m : StRow),
        m ∈ rows → m.ty = RT.CIN → m.pi = pi →
        (∀ r ∈ rows, r.ty = RT.CIN → r.pi = pi → r.lt = r.ct) →
        (∀ r ∈ rows, r.ty = RT.CIN → r.pi = pi → r ≠ m → r.ct < m.ct) →
        CNT_LA.handleRetrieveRequest rows pi = Except.ok m) := by
  refine ⟨fun _ _ => rfl, fun _ _ => rfl, ?_, ?_⟩
  · intro rows pi hnone
    unfold CNT_LA.handleRetrieveRequest retrieveLatestOldest
      retrieveLatestOldestInstance retrieveLatestResource
    have hfil : rows.filter (fun r => r.ty == RT.CIN && r.pi == pi) = [] := by
      rw [List.filter_eq_nil_iff]
      intro r hr hc
      simp only [Bool.and_eq_true, beq_iff_eq] at hc
      exact hnone r hr ⟨hc.1, hc.2⟩
    rw [hfil]
    rfl
  · intro rows pi m hm hty hpi hltct hmax
    unfold CNT_LA.handleRetrieveRequest retrieveLatestOldest
      retrieveLatestOldestInstance retrieveLatestResource
    have hpick : (rows.filter (fun r => r.ty == RT.CIN && r.pi == pi)).foldl
        latestStep none = some m := by
      apply foldl_latestStep_pick
      · intro r hr
        have hrm := List.mem_filter.mp hr
        simp only [Bool.and_eq_true, beq_iff_eq] at hrm
        by_cases h : r = m
        · exact Or.inl h
        · right
          have h1 := hltct r hrm.1 hrm.2.1 hrm.2.2
          have h2 := hmax r hrm.1 hrm.2.1 hrm.2.2 h
          have h3 := hltct m hm hty hpi
          omega
      · exact Or.inl rfl
      · left
        exact List.mem_filter.mpr ⟨hm, by simp [hty, hpi]⟩
    rw [hpick]

/-- Witness for C7 at a concrete input: a container with two content
instances and a subscription child; RETRIEVE of latest yields the younger
instance, and a container with no instance children yields not-found. -/
theorem C7_latest_virtual_guard_witness :
    CNT_LA.handleRetrieveRequest
        [⟨"cin1", "cnt1", RT.CIN, 1, 1⟩, ⟨"cin2", "cnt1", RT.CIN, 2, 2⟩,
         ⟨"sub1", "cnt1", RT.SUB, 3, 3⟩] "cnt1"
      = Except.ok ⟨"cin2", "cnt1", RT.CIN, 2, 2⟩
    ∧ CNT_LA.handleRetrieveRequest [⟨"sub1", "cnt1", RT.SUB, 3, 3⟩] "cnt1"
      = Except.error ⟨RSC.notFound, "no instance for latest"⟩ :=
  ⟨C7_latest_virtual_guard.2.2.2
      [⟨"cin1", "cnt1", RT.CIN, 1, 1⟩, ⟨"cin2", "cnt1", RT.CIN, 2, 2⟩,
       ⟨"sub1", "cnt1", RT.SUB, 3, 3⟩] "cnt1" ⟨"cin2", "cnt1", RT.CIN, 2, 2⟩
      (by decide) (by decide) (by decide) (by decide) (by decide),
   C7_latest_virtual_guard.2.2.1 [⟨"sub1", "cnt1", RT.SUB, 3, 3⟩] "cnt1"
      (by decide)⟩

/-- C5: duplicate-identifier conflict — whenever the new resource's `ri`
(client-supplied or generated, via `resolveRi`) or its `srn` already
exists in the store, the CREATE pipeline returns a conflict error and the
store is unchanged (no resource is created). -/
theorem C5_duplicate_conflict (o : CreateOracle) (clientRi : Option String)
    (generated srn : String) (st : CrState) :
    (storeHasRi st.store (resolveRi clientRi generated) = true →
      (processCreateTail o (resolveRi clientRi generated) srn st).1
        = Except.error ⟨RSC.conflict, "Resource with ri already exists"⟩
      ∧ (processCreateTail o (resolveRi clientRi generated) srn st).2.store = st.store)
    ∧ (storeHasRi st.store (resolveRi clientRi generated) = false →
       storeHasSrn st.store srn = true →
      (processCreateTail o (resolveRi clientRi generated) srn st).1
        = Except.error ⟨RSC.conflict, "Resource with structured id already exists"⟩
      ∧ (processCreateTail o (resolveRi clientRi generated) srn st).2.store = st.store) := by
  constructor
  · intro hdup
    unfold processCreateTail
    simp only [hdup, if_true]
    exact ⟨trivial, trivial⟩
  · intro hri hsrn
    unfold processCreateTail
    simp only [hri, hsrn, Bool.false_eq_true, if_false, if_true, not_false_iff]
    exact ⟨trivial, trivial⟩

/-- Witness for C5 at concrete inputs: a store already holding
`("r1", "cse/c1")`, hit once through a client-supplied duplicate `ri` and
once through a duplicate `srn` with a fresh generated `ri`. -/
theorem C5_duplicate_conflict_witness :
    ((processCreateTail ⟨true, false, none, true, true⟩ (resolveRi (some "r1") "gen") "cse/x"
        ⟨[("r1", "cse/c1")], []⟩).1
      = Except.error ⟨RSC.conflict, "Resource with ri already exists"⟩
      ∧ (processCreateTail ⟨true, false, none, true, true⟩ (resolveRi (some "r1") "gen") "cse/x"
          ⟨[("r1", "cse/c1")], []⟩).2.store = [("r1", "cse/c1")])
    ∧ ((processCreateTail ⟨true, false, none, true, true⟩ (resolveRi none "gen") "cse/c1"
        ⟨[("r1", "cse/c1")], []⟩).1
      = Except.error ⟨RSC.conflict, "Resource with structured id already exists"⟩
      ∧ (processCreateTail ⟨true, false, none, true, true⟩ (resolveRi none "gen") "cse/c1"
          ⟨[("r1", "cse/c1")], []⟩).2.store = [("r1", "cse/c1")]) :=
  ⟨(C5_duplicate_conflict ⟨true, false, none, true, true⟩ (some "r1") "gen" "cse/x"
      ⟨[("r1", "cse/c1")], []⟩).1 (by decide),
   (C5_duplicate_conflict ⟨true, false, none, true, true⟩ none "gen" "cse/c1"
      ⟨[("r1", "cse/c1")], []⟩).2 (by decide) (by decide)⟩

/-- C4: CREATE rollback atomicity — code bug.  The source intends to roll
back a failed post-activate write (`resource.dbDelete(); return res` in
`Dispatcher.createLocalResource`), and activation failure and a vanished
parent do roll back, but the write-failure guard tests the Result's
attached resource, which `Storage.updateResource` attaches even on
failure, so that branch is dead.  Evaluated at a pipeline run whose
post-activate write fails, the pipeline returns success, the just-written
record stays in the store, and the registration reservation is kept —
contradicting the claim's post-activate-write-failure prong. -/
theorem C4_create_rollback_bug :
    (processCreateTail ⟨true, false, none, false, true⟩ "new1" "cse/new1"
        ⟨[("r1", "cse/c1")], []⟩).1 = Except.ok ()
    ∧ storeHasRi ((processCreateTail ⟨true, false, none, false, true⟩ "new1" "cse/new1"
        ⟨[("r1", "cse/c1")], []⟩).2.store) "new1" = true
    ∧ (processCreateTail ⟨true, false, none, false, true⟩ "new1" "cse/new1"
        ⟨[("r1", "cse/c1")], []⟩).2.reservations = ["new1"] :=
  ⟨rfl, rfl, rfl⟩

/-- The six keys named immutable by the spec (`ty`, `ri`, `pi`, `rn`,
`ct`, `st`); the merge loop additionally skips `lt`, which is refreshed
separately. -/
def immutableKeys : List String := ["ty", "ri", "pi", "rn", "ct", "st"]

/-- Drop the immutable keys from an inner attribute map. -/
def filterImmutable (ua : AttrMap) : AttrMap :=
  ua.filter (fun kv => !(decide (kv.1 ∈ immutableKeys)))

/-- Drop the immutable keys from every inner map of a delta. -/
def stripImmutable (dct : List (String × AttrMap)) : List (String × AttrMap) :=
  dct.map (fun p => (p.1, filterImmutable p.2))

theorem immutable_sub_excluded {s : String} (h : s ∈ immutableKeys) :
    s ∈ excludedFromUpdate := by
  fin_cases h <;> decide

theorem getAttr_filterImmutable {k : String} (hk : k ∉ immutableKeys) :
    ∀ ua : AttrMap, getAttr (filterImmutable ua) k = getAttr ua k := by
  intro ua
  induction ua with
  | nil => rfl
  | cons p rest ih =>
    unfold filterImmutable at ih ⊢
    rw [List.filter_cons]
    by_cases hp : p.1 = k
    · have hkeep : (!(decide (p.1 ∈ immutableKeys))) = true := by
        rw [hp]
        simp [hk]
      simp only [hkeep, if_true]
      rw [getAttr_cons_self hp, getAttr_cons_self hp]
    · by_cases hmem : p.1 ∈ immutableKeys
      · have hdrop : (!(decide (p.1 ∈ immutableKeys))) = false := by simp [hmem]
        simp only [hdrop, Bool.false_eq_true, if_neg, not_false_iff]
        rw [getAttr_cons_other hp]
        exact ih
      · have hkeep : (!(decide (p.1 ∈ immutableKeys))) = true := by simp [hmem]
        simp only [hkeep, if_true]
        rw [getAttr_cons_other hp, getAttr_cons_other hp]
        exact ih

theorem mergeAttrs_filterImmutable (env : Env) (ua : AttrMap) :
    ∀ d : AttrMap, mergeAttrs env d (filterImmutable ua) = mergeAttrs env d ua := by
  induction ua with
  | nil => intro d; rfl
  | cons kv rest ih =>
    intro d
    unfold filterImmutable at ih ⊢
    rw [List.filter_cons]
    by_cases hmem : kv.1 ∈ immutableKeys
    · have hdrop : (!(decide (kv.1 ∈ immutableKeys))) = false := by simp [hmem]
      simp only [hdrop, Bool.false_eq_true, if_neg, not_false_iff]
      have hexc : kv.1 ∈ excludedFromUpdate := immutable_sub_excluded hmem
      conv_rhs => unfold mergeAttrs
      rw [List.foldl_cons]
      simp only [hexc, if_true]
      exact ih d
    · have hkeep : (!(decide (kv.1 ∈ immutableKeys))) = true := by simp [hmem]
      simp only [hkeep, if_true]
      conv_lhs => unfold mergeAttrs
      conv_rhs => unfold mergeAttrs
      rw [List.foldl_cons, List.foldl_cons]
      exact ih _

theorem find?_stripImmutable (dct : List (String × AttrMap)) (tpe : String) :
    List.find? (fun p => p.1 == tpe) (stripImmutable dct)
      = (List.find? (fun p => p.1 == tpe) dct).map
          (fun p => (p.1, filterImmutable p.2)) := by
  induction dct with
  | nil => rfl
  | cons p rest ih =>
    unfold stripImmutable at ih ⊢
    rw [List.map_cons]
    by_cases h : p.1 = tpe
    · rw [List.find?_cons_of_pos _ (by simpa using h),
          List.find?_cons_of_pos _ (by simpa using h)]
      rfl
    · rw [List.find?_cons_of_neg _ (by simpa using h),
          List.find?_cons_of_neg _ (by simpa using h)]
      exact ih

theorem updateWithUA_filterImmutable (env : Env) (r : Res) (ua : AttrMap) :
    r.updateWithUA env (filterImmutable ua) = r.updateWithUA env ua := by
  unfold Res.updateWithUA
  have hacpi : getAttr (filterImmutable ua) "acpi" = getAttr ua "acpi" :=
    getAttr_filterImmutable (by decide) ua
  rw [hacpi]
  cases h : getAttr ua "acpi" with
  | none =>
    dsimp only
    rw [mergeAttrs_filterImmutable]
  | some v =>
    dsimp only
    by_cases hv : (!(v == Val.null)) = true
    · simp only [hv, if_true]
    · simp only [hv, Bool.false_eq_true, if_neg, not_false_iff]
      rw [mergeAttrs_filterImmutable]

theorem update_stripImmutable_eq (env : Env) (r : Res)
    (dct : List (String × AttrMap)) :
    Res.update env r (stripImmutable dct) = Res.update env r dct := by
  unfold Res.update
  have hemp : (stripImmutable dct).isEmpty = dct.isEmpty := by
    unfold stripImmutable
    cases dct <;> rfl
  rw [hemp]
  by_cases he : dct.isEmpty = true
  · rw [if_pos he, if_pos he]
  · rw [if_neg he, if_neg he]
    rw [find?_stripImmutable]
    have hh : (stripImmutable dct).head?
        = (dct.head?).map (fun p => (p.1, filterImmutable p.2)) := by
      unfold stripImmutable
      cases dct <;> rfl
    cases hannc : (r.ty == RT.FCNTAnnc) with
    | true =>
      cases hf : List.find? (fun p => p.1 == r.tpe) dct with
      | none =>
        dsimp only [Option.map_none']
        rw [hh]
        cases dct.head? with
        | none => rfl
        | some p =>
          dsimp only [Option.map_some', Option.getD_some]
          exact updateWithUA_filterImmutable env r p.2
      | some p =>
        dsimp only [Option.map_some']
        rw [hh]
        cases dct.head? with
        | none => rfl
        | some q =>
          dsimp only [Option.map_some', Option.getD_some]
          exact updateWithUA_filterImmutable env r q.2
    | false =>
      cases hf : List.find? (fun p => p.1 == r.tpe) dct with
      | none => rfl
      | some p =>
        dsimp only [Option.map_some', Option.getD_some]
        exact updateWithUA_filterImmutable env r p.2

theorem acpi_ne_of_excluded {k : String} (hk : k ∈ excludedFromUpdate) :
    "acpi" ≠ k := by
  fin_cases hk <;> decide

theorem updateWithUA_ok_exists_mid {env : Env} {r r' : Res} {ua : AttrMap}
    (h : r.updateWithUA env ua = Except.ok r') :
    ∃ d, Res.postUpdate env { r with dict := d } = Except.ok r'
      ∧ (keysNodup r.dict → keysNodup d)
      ∧ ∀ k, k ∈ excludedFromUpdate → getAttr d k = getAttr r.dict k := by
  unfold Res.updateWithUA at h
  cases hacpi : getAttr ua "acpi" with
  | none =>
    rw [hacpi] at h
    exact ⟨_, h, fun hnd => keysNodup_mergeAttrs env ua hnd,
      fun k hk => mergeAttrs_getAttr_excluded env ua hk⟩
  | some v =>
    rw [hacpi] at h
    dsimp only at h
    by_cases hv : (!(v == Val.null)) = true
    · simp only [hv, if_true] at h
      split at h
      · cases h
      · cases h
      · exact ⟨_, h, fun hnd => keysNodup_setAttr _ _ hnd,
          fun k hk => getAttr_setAttr_other _ _ (acpi_ne_of_excluded hk)⟩
    · simp only [hv, Bool.false_eq_true, if_neg, not_false_iff] at h
      exact ⟨_, h, fun hnd => keysNodup_mergeAttrs env ua hnd,
        fun k hk => mergeAttrs_getAttr_excluded env ua hk⟩

theorem update_ok_exists_mid {env : Env} {r r' : Res}
    {dct : List (String × AttrMap)}
    (h : Res.update env r dct = Except.ok r') :
    ∃ d, Res.postUpdate env { r with dict := d } = Except.ok r'
      ∧ (keysNodup r.dict → keysNodup d)
      ∧ ∀ k, k ∈ excludedFromUpdate → getAttr d k = getAttr r.dict k := by
  unfold Res.update at h
  by_cases he : dct.isEmpty = true
  · rw [if_pos he] at h
    exact ⟨r.dict, h, fun hnd => hnd, fun _ _ => rfl⟩
  · rw [if_neg he] at h
    split at h
    · cases h
    · exact updateWithUA_ok_exists_mid h

/-- C3: update null-merge semantics — in the merge branch of `update`
(no non-null `acpi` in the delta), an attribute not excluded from update
that is set to null is absent after the update (the nulled entry is
stripped when the resource is persisted), while `et` set to a falsy value
is regenerated to `now + maxExpirationDelta`, so it remains present and —
since the previous value passed validation at some strictly earlier time
and was therefore below the current bound — the new value is strictly
later than before. -/
theorem C3_update_null_merge (env : Env) (r r' : Res)
    (dct : List (String × AttrMap)) (ua : AttrMap)
    (hnd : keysNodup r.dict) (hund : keysNodup ua)
    (hne : dct.isEmpty = false)
    (hfind : List.find? (fun p => p.1 == r.tpe) dct = some (r.tpe, ua))
    (hty : (r.ty == RT.FCNTAnnc) = false)
    (hacpi : getAttr ua "acpi" = none ∨ getAttr ua "acpi" = some Val.null)
    (hupd : Res.update env r dct = Except.ok r') :
    (∀ k, k ∉ excludedFromUpdate → k ≠ "et" →
      getAttr ua k = some Val.null → getAttr r'.dict k = none)
    ∧ (∀ v, getAttr ua "et" = some v → v.isFalsy = true →
      getAttr r'.dict "et" = some (Val.num (env.now + env.maxExpirationDelta))
      ∧ (∀ t0, getAttr r.dict "et" = some (Val.num t0) →
          t0 < env.now + env.maxExpirationDelta →
          ∃ t1, getAttr r'.dict "et" = some (Val.num t1) ∧ t0 < t1)) := by
  rw [update_merge_branch env r hne hfind hty hacpi] at hupd
  have hndm : keysNodup (mergeAttrs env r.dict ua) := keysNodup_mergeAttrs env ua hnd
  constructor
  · intro k hexc het hget
    have hmerge : getAttr (mergeAttrs env r.dict ua) k = some Val.null :=
      mergeAttrs_getAttr_write env hund hget hexc het
    have hk1 : k ≠ "lt" := fun hc => hexc (by rw [hc]; decide)
    have hchar := postUpdate_ok_getAttr
      (r := { r with dict := mergeAttrs env r.dict ua }) hndm hk1 het hupd
    rw [hchar]
    show (getAttr (mergeAttrs env r.dict ua) k).bind _ = none
    rw [hmerge]
    rfl
  · intro v hv hfal
    have hmerge : getAttr (mergeAttrs env r.dict ua) "et"
        = some (Val.num (env.now + env.maxExpirationDelta)) :=
      mergeAttrs_getAttr_etRegen env hund hv hfal
    have hres := postUpdate_ok_getAttr_et
      (r := { r with dict := mergeAttrs env r.dict ua }) hndm hmerge hupd
    exact ⟨hres, fun t0 _ hlt => ⟨_, hres, hlt⟩⟩

/-- Witness for C3 at a concrete input: a container with a label and an
expiration time, updated with `{lbl: null, et: null}`; afterwards `lbl` is
gone and `et` equals the regenerated `110`, strictly later than the old
`50`. -/
theorem C3_update_null_merge_witness :
    getAttr (Res.dict ⟨RT.CNT, "m2m:cnt",
        [("ri", Val.str "cnt1"), ("pi", Val.str "cse"), ("rn", Val.str "c"),
         ("et", Val.num 110), ("lt", Val.num 10)]⟩) "lbl" = none
    ∧ getAttr (Res.dict ⟨RT.CNT, "m2m:cnt",
        [("ri", Val.str "cnt1"), ("pi", Val.str "cse"), ("rn", Val.str "c"),
         ("et", Val.num 110), ("lt", Val.num 10)]⟩) "et" = some (Val.num (10 + 100)) := by
  have h := C3_update_null_merge ⟨10, 100, [], true⟩
    ⟨RT.CNT, "m2m:cnt",
      [("ri", Val.str "cnt1"), ("pi", Val.str "cse"), ("rn", Val.str "c"),
       ("lbl", Val.list ["x"]), ("et", Val.num 50), ("lt", Val.num 1)]⟩
    ⟨RT.CNT, "m2m:cnt",
      [("ri", Val.str "cnt1"), ("pi", Val.str "cse"), ("rn", Val.str "c"),
       ("et", Val.num 110), ("lt", Val.num 10)]⟩
    [("m2m:cnt", [("lbl", Val.null), ("et", Val.null)])]
    [("lbl", Val.null), ("et", Val.null)]
    (by unfold keysNodup; decide) (by unfold keysNodup; decide)
    (by decide) (by decide) (by decide)
    (Or.inl (by decide)) (by rfl)
  exact ⟨h.1 "lbl" (by decide) (by decide) (by decide),
         (h.2 Val.null (by decide) (by decide)).1⟩

/-- C8: immutable-key frame — the keys `ty`, `ri`, `pi`, `rn`, `ct`, `st`
appearing in the delta are ignored, not rejected: after a successful
update those attributes hold exactly the values they held before (the
hypothesis excludes a stored null, which a persisted resource never
carries), and dropping those keys from the delta leaves the result of
`update` unchanged — in particular their presence alone never turns a
successful update into a failure. -/
theorem C8_immutable_frame (env : Env) (r r' : Res)
    (dct : List (String × AttrMap))
    (hnd : keysNodup r.dict)
    (hupd : Res.update env r dct = Except.ok r') :
    (∀ k, k ∈ immutableKeys → getAttr r.dict k ≠ some Val.null →
        getAttr r'.dict k = getAttr r.dict k)
    ∧ Res.update env r (stripImmutable dct) = Res.update env r dct := by
  constructor
  · intro k hk hnn
    obtain ⟨d, hpost, hdnd, hpres⟩ := update_ok_exists_mid hupd
    have hexc := immutable_sub_excluded hk
    have hk1 : k ≠ "lt" := by fin_cases hk <;> decide
    have hk2 : k ≠ "et" := by fin_cases hk <;> decide
    have hchar := postUpdate_ok_getAttr (hdnd hnd) hk1 hk2 hpost
    rw [hchar]
    show (getAttr d k).bind _ = _
    rw [hpres k hexc]
    cases hg : getAttr r.dict k with
    | none => rfl
    | some v =>
      have hvn : v ≠ Val.null := fun hc => hnn (hc ▸ hg)
      simp [hvn]
  · exact update_stripImmutable_eq env r dct

/-- Witness for C8 at a concrete input: an update whose delta smuggles in
`ri` and `ct`; both keep their old values and stripping the two keys from
the delta gives the identical update result. -/
theorem C8_immutable_frame_witness :
    getAttr (Res.dict ⟨RT.CNT, "m2m:cnt",
        [("ri", Val.str "cnt1"), ("pi", Val.str "cse"), ("rn", Val.str "c"),
         ("ct", Val.num 1), ("lbl", Val.list ["y"])]⟩) "ri" = some (Val.str "cnt1")
    ∧ Res.update ⟨10, 100, [], true⟩
        ⟨RT.CNT, "m2m:cnt",
          [("ri", Val.str "cnt1"), ("pi", Val.str "cse"), ("rn", Val.str "c"),
           ("ct", Val.num 1), ("lbl", Val.list ["x"])]⟩
        (stripImmutable [("m2m:cnt",
          [("ri", Val.str "HACK"), ("ct", Val.num 99), ("lbl", Val.list ["y"])])])
      = Res.update ⟨10, 100, [], true⟩
        ⟨RT.CNT, "m2m:cnt",
          [("ri", Val.str "cnt1"), ("pi", Val.str "cse"), ("rn", Val.str "c"),
           ("ct", Val.num 1), ("lbl", Val.list ["x"])]⟩
        [("m2m:cnt",
          [("ri", Val.str "HACK"), ("ct", Val.num 99), ("lbl", Val.list ["y"])])] := by
  have h := C8_immutable_frame ⟨10, 100, [], true⟩
    ⟨RT.CNT, "m2m:cnt",
      [("ri", Val.str "cnt1"), ("pi", Val.str "cse"), ("rn", Val.str "c"),
       ("ct", Val.num 1), ("lbl", Val.list ["x"])]⟩
    ⟨RT.CNT, "m2m:cnt",
      [("ri", Val.str "cnt1"), ("pi", Val.str "cse"), ("rn", Val.str "c"),
       ("ct", Val.num 1), ("lbl", Val.list ["y"])]⟩
    [("m2m:cnt", [("ri", Val.str "HACK"), ("ct", Val.num 99), ("lbl", Val.list ["y"])])]
    (by unfold keysNodup; decide) (by rfl)
  refine ⟨?_, h.2⟩
  have := h.1 "ri" (by decide) (by decide)
  rw [this]
  decide

theorem validateR_ok_getAttr {env : Env} {r r1 : Res}
    (h : r.validateR env = Except.ok r1) {k : String} (hk : k ≠ "et") :
    getAttr r1.dict k = getAttr r.dict k := by
  obtain ⟨_, _, hd⟩ := validateR_ok_shape h
  rcases hd with hd | hd
  · rw [hd]
  · rw [hd, getAttr_setAttr_other _ _ (fun hc => hk hc.symm)]

theorem validateR_ok_keysNodup {env : Env} {r r1 : Res}
    (h : r.validateR env = Except.ok r1) (hnd : keysNodup r.dict) :
    keysNodup r1.dict := by
  obtain ⟨_, _, hd⟩ := validateR_ok_shape h
  rcases hd with hd | hd
  · rw [hd]; exact hnd
  · rw [hd]; exact keysNodup_setAttr _ _ hnd

theorem isAnnouncedT_eq_false {ty : RT} (h : (ty == RT.FCNTAnnc) = false) :
    RT.isAnnouncedT ty = false := by
  cases ty <;> simp_all [RT.isAnnouncedT]

/-- C6: ACP reference guard — in both `update` and `activate`, a present
non-null `acpi` that is an empty list is rejected with a bad-request
error; a list containing a reference to a nonexistent ACP resource is
rejected with the same error class; and on success every entry of the
stored `acpi` is the canonical resource ID of the ACP resource the
original entry referenced. -/
theorem C6_acpi_guard (env : Env) (r : Res)
    (dct : List (String × AttrMap)) (ua : AttrMap)
    (hnd : keysNodup r.dict)
    (hne : dct.isEmpty = false)
    (hfind : List.find? (fun p => p.1 == r.tpe) dct = some (r.tpe, ua))
    (hty : (r.ty == RT.FCNTAnnc) = false) :
    (getAttr ua "acpi" = some (Val.list []) →
      Res.update env r dct
        = Except.error ⟨RSC.badRequest, "acpi must not be an empty list"⟩)
    ∧ (∀ xs, getAttr ua "acpi" = some (Val.list xs) →
        (∃ x ∈ xs, List.find? (fun p => p.1 == x) env.acpStore = none) →
        ∃ dbg, Res.update env r dct = Except.error ⟨RSC.badRequest, dbg⟩)
    ∧ (∀ xs r', getAttr ua "acpi" = some (Val.list xs) →
        Res.update env r dct = Except.ok r' →
        ∃ ys, checkAndFixACPIreferences env xs = Except.ok ys
          ∧ getAttr r'.dict "acpi" = some (Val.list ys)
          ∧ List.Forall₂ (fun x y => ∃ c,
              List.find? (fun p => p.1 == x) env.acpStore = some c ∧ c.2 = y) xs ys)
    ∧ (∀ r1, r.validateR env = Except.ok r1 →
        getAttr r.dict "acpi" = some (Val.list []) →
        Res.activate env r
          = Except.error ⟨RSC.badRequest, "acpi must not be an empty list"⟩)
    ∧ (∀ r1 xs, r.validateR env = Except.ok r1 →
        getAttr r.dict "acpi" = some (Val.list xs) →
        (∃ x ∈ xs, List.find? (fun p => p.1 == x) env.acpStore = none) →
        ∃ dbg, Res.activate env r = Except.error ⟨RSC.badRequest, dbg⟩)
    ∧ (∀ xs r2, getAttr r.dict "acpi" = some (Val.list xs) →
        Res.activate env r = Except.ok r2 →
        ∃ ys, checkAndFixACPIreferences env xs = Except.ok ys
          ∧ getAttr r2.dict "acpi" = some (Val.list ys)
          ∧ List.Forall₂ (fun x y => ∃ c,
              List.find? (fun p => p.1 == x) env.acpStore = some c ∧ c.2 = y) xs ys) := by
  refine ⟨?_, ?_, ?_, ?_, ?_, ?_⟩
  · intro hacpi
    rw [update_acpi_branch env r hne hfind hty hacpi]
    rfl
  · intro xs hacpi hmiss
    obtain ⟨dbg, hdbg⟩ := checkAndFix_error_of_missing env hmiss
    refine ⟨dbg, ?_⟩
    rw [update_acpi_branch env r hne hfind hty hacpi]
    obtain ⟨x, hx, _⟩ := hmiss
    have hxe : xs.isEmpty = false := by
      cases xs
      · cases hx
      · rfl
    rw [hxe, hdbg]
  · intro xs r' hacpi hupd
    rw [update_acpi_branch env r hne hfind hty hacpi] at hupd
    cases hxe : xs.isEmpty with
    | true =>
      rw [hxe] at hupd
      cases hupd
    | false =>
      rw [hxe] at hupd
      cases hfix : checkAndFixACPIreferences env xs with
      | error e =>
        rw [hfix] at hupd
        cases hupd
      | ok ys =>
        rw [hfix] at hupd
        refine ⟨ys, rfl, ?_, checkAndFix_ok_forall2 env hfix⟩
        have hndm : keysNodup (setAttr r.dict "acpi" (Val.list ys)) :=
          keysNodup_setAttr _ _ hnd
        have hchar := postUpdate_ok_getAttr (k := "acpi")
          (r := { r with dict := setAttr r.dict "acpi" (Val.list ys) })
          hndm (by decide) (by decide) hupd
        rw [hchar]
        show (getAttr (setAttr r.dict "acpi" (Val.list ys)) "acpi").bind _ = _
        rw [getAttr_setAttr_self]
        rfl
  · intro r1 hval hacpi
    unfold Res.activate
    rw [hval]
    dsimp only
    have hann : RT.isAnnouncedT r1.ty = false := by
      obtain ⟨hty1, _, _⟩ := validateR_ok_shape hval
      rw [hty1]
      exact isAnnouncedT_eq_false hty
    rw [hann]
    have hstrip : getAttr (stripNulls r1.dict) "acpi" = some (Val.list []) := by
      rw [getAttr_stripNulls (validateR_ok_keysNodup hval hnd),
          validateR_ok_getAttr hval (by decide), hacpi]
      rfl
    simp only [Bool.not_false, if_true, hstrip]
    rfl
  · intro r1 xs hval hacpi hmiss
    obtain ⟨dbg, hdbg⟩ := checkAndFix_error_of_missing env hmiss
    refine ⟨dbg, ?_⟩
    unfold Res.activate
    rw [hval]
    dsimp only
    have hann : RT.isAnnouncedT r1.ty = false := by
      obtain ⟨hty1, _, _⟩ := validateR_ok_shape hval
      rw [hty1]
      exact isAnnouncedT_eq_false hty
    have hstrip : getAttr (stripNulls r1.dict) "acpi" = some (Val.list xs) := by
      rw [getAttr_stripNulls (validateR_ok_keysNodup hval hnd),
          validateR_ok_getAttr hval (by decide), hacpi]
      rfl
    simp only [hann, Bool.not_false, if_true, hstrip]
    obtain ⟨x, hx, _⟩ := hmiss
    have hxe : xs.isEmpty = false := by
      cases xs
      · cases hx
      · rfl
    dsimp only [Val.asStrList]
    rw [hxe, hdbg]
  · intro xs r2 hacpi hact
    unfold Res.activate at hact
    cases hval : r.validateR env with
    | error e =>
      rw [hval] at hact
      cases hact
    | ok r1 =>
      rw [hval] at hact
      dsimp only at hact
      have hann : RT.isAnnouncedT r1.ty = false := by
        obtain ⟨hty1, _, _⟩ := validateR_ok_shape hval
        rw [hty1]
        exact isAnnouncedT_eq_false hty
      have hstrip : getAttr (stripNulls r1.dict) "acpi" = some (Val.list xs) := by
        rw [getAttr_stripNulls (validateR_ok_keysNodup hval hnd),
            validateR_ok_getAttr hval (by decide), hacpi]
        rfl
      simp only [hann, Bool.not_false, if_true, hstrip] at hact
      dsimp only [Val.asStrList] at hact
      cases hxe : xs.isEmpty with
      | true =>
        rw [hxe] at hact
        cases hact
      | false =>
        rw [hxe] at hact
        cases hfix : checkAndFixACPIreferences env xs with
        | error e =>
          rw [hfix] at hact
          cases hact
        | ok ys =>
          rw [hfix] at hact
          injection hact with hact
          subst hact
          refine ⟨ys, rfl, ?_, checkAndFix_ok_forall2 env hfix⟩
          show getAttr (setAttr (stripNulls r1.dict) "acpi" (Val.list ys)) "acpi" = _
          rw [getAttr_setAttr_self]

/-- Witness for C6 at concrete inputs: with one ACP `acp1` (canonical ID
`canon1`) in the store, updating `acpi` to `[]` is rejected, updating it
to `["ghost"]` is rejected with a bad-request error, and updating it to
`["acp1"]` stores the canonical form. -/
theorem C6_acpi_guard_witness :
    Res.update ⟨10, 100, [("acp1", "canon1")], true⟩
        ⟨RT.CNT, "m2m:cnt",
          [("ri", Val.str "cnt1"), ("pi", Val.str "cse"), ("rn", Val.str "c")]⟩
        [("m2m:cnt", [("acpi", Val.list [])])]
      = Except.error ⟨RSC.badRequest, "acpi must not be an empty list"⟩
    ∧ (∃ dbg, Res.update ⟨10, 100, [("acp1", "canon1")], true⟩
        ⟨RT.CNT, "m2m:cnt",
          [("ri", Val.str "cnt1"), ("pi", Val.str "cse"), ("rn", Val.str "c")]⟩
        [("m2m:cnt", [("acpi", Val.list ["ghost"])])]
      = Except.error ⟨RSC.badRequest, dbg⟩)
    ∧ (∃ ys, checkAndFixACPIreferences ⟨10, 100, [("acp1", "canon1")], true⟩ ["acp1"]
          = Except.ok ys
        ∧ getAttr (Res.dict ⟨RT.CNT, "m2m:cnt",
            [("ri", Val.str "cnt1"), ("pi", Val.str "cse"), ("rn", Val.str "c"),
             ("acpi", Val.list ["canon1"])]⟩) "acpi" = some (Val.list ys)
        ∧ List.Forall₂ (fun x y => ∃ c,
            List.find? (fun p => p.1 == x)
              (Env.acpStore ⟨10, 100, [("acp1", "canon1")], true⟩) = some c ∧ c.2 = y)
            ["acp1"] ys) :=
  ⟨(C6_acpi_guard ⟨10, 100, [("acp1", "canon1")], true⟩
      ⟨RT.CNT, "m2m:cnt",
        [("ri", Val.str "cnt1"), ("pi", Val.str "cse"), ("rn", Val.str "c")]⟩
      [("m2m:cnt", [("acpi", Val.list [])])] [("acpi", Val.list [])]
      (by unfold keysNodup; decide) (by decide) (by decide) (by decide)).1 (by decide),
   (C6_acpi_guard ⟨10, 100, [("acp1", "canon1")], true⟩
      ⟨RT.CNT, "m2m:cnt",
        [("ri", Val.str "cnt1"), ("pi", Val.str "cse"), ("rn", Val.str "c")]⟩
      [("m2m:cnt", [("acpi", Val.list ["ghost"])])] [("acpi", Val.list ["ghost"])]
      (by unfold keysNodup; decide) (by decide) (by decide) (by decide)).2.1
     ["ghost"] (by decide) ⟨"ghost", by decide, by decide⟩,
   (C6_acpi_guard ⟨10, 100, [("acp1", "canon1")], true⟩
      ⟨RT.CNT, "m2m:cnt",
        [("ri", Val.str "cnt1"), ("pi", Val.str "cse"), ("rn", Val.str "c")]⟩
      [("m2m:cnt", [("acpi", Val.list ["acp1"])])] [("acpi", Val.list ["acp1"])]
      (by unfold keysNodup; decide) (by decide) (by decide) (by decide)).2.2.1
     ["acp1"]
     ⟨RT.CNT, "m2m:cnt",
       [("ri", Val.str "cnt1"), ("pi", Val.str "cse"), ("rn", Val.str "c"),
        ("acpi", Val.list ["canon1"])]⟩
     (by decide) (by rfl)⟩

/-- Scenario for C2: five direct children of a root; `dA` and `dB` have
the filter type (AE), `dB`, `dC` and `dD` carry the filter label "L", so
`dB` is the single child matching both. -/
def dA : DRes := ⟨"a", RT.AE, none, none, none, none, [], none, none, []⟩

def dB : DRes := ⟨"b", RT.AE, none, none, none, none, ["L"], none, none, []⟩

def dC : DRes := ⟨"c", RT.CNT, none, none, none, none, ["L"], none, none, []⟩

def dD : DRes := ⟨"d", RT.CNT, none, none, none, none, ["L", "M"], none, none, []⟩

def dE : DRes := ⟨"e", RT.CNT, none, none, none, none, [], none, none, []⟩

def scenarioTree : DTree :=
  DTree.node ⟨"root", RT.CSEBase, none, none, none, none, [], none, none, []⟩
    [DTree.node dA [], DTree.node dB [], DTree.node dC [],
     DTree.node dD [], DTree.node dE []]

def scenarioFC : FC := { tyF := some [RT.AE], lblF := some ["L"] }

/-- C2: discovery match scoring and AND/OR combination — a multi-valued
condition category (type list, label list, content-format list) adds its
full value count to the score when any one of its values matches; the
inclusion test is score > 0 under OR and score = total condition count
under AND; and on the five-child scenario tree, OR over the type filter
and the label filter returns the four distinct matches in walk order
while AND returns exactly the one child matching both. -/
theorem C2_discovery_scoring :
    (∀ (fc : FC) (r : DRes) (tys : List RT), fc.tyF = some tys → r.ty ∈ tys →
      matchScore fc r = tys.length + matchScore { fc with tyF := none } r)
    ∧ (∀ (fc : FC) (r : DRes) (lbls : List String), fc.lblF = some lbls →
        r.lbl ≠ [] → (∃ l ∈ lbls, l ∈ r.lbl) →
        matchScore fc r = lbls.length + matchScore { fc with lblF := none } r)
    ∧ (∀ (fc : FC) (r : DRes) (ctys : List String) (cnf : String),
        fc.ctyF = some ctys → r.ty = RT.CIN → r.cnf = some cnf → cnf ∈ ctys →
        matchScore fc r = ctys.length + matchScore { fc with ctyF := none } r)
    ∧ (∀ (fc : FC) (fo : FO) (allLen : Nat) (r : DRes),
        matchResource fc fo allLen r = true ↔
          ((fo = FO.OR ∧ 0 < matchScore fc r)
           ∨ (fo = FO.AND ∧ matchScore fc r = allLen)))
    ∧ discoverResources (fun _ => true) scenarioFC (some FO.OR) 5 none none scenarioTree
        = [dA, dB, dC, dD]
    ∧ discoverResources (fun _ => true) scenarioFC (some FO.AND) 5 none none scenarioTree
        = [dB] := by
  refine ⟨?_, ?_, ?_, ?_, ?_, ?_⟩
  · intro fc r tys hty hmem
    unfold matchScore
    dsimp only
    rw [hty]
    dsimp only
    rw [if_pos hmem]
    omega
  · intro fc r lbls hlbl hne hex
    obtain ⟨l, hl, hlr⟩ := hex
    unfold matchScore
    dsimp only
    rw [hlbl]
    dsimp only
    rw [if_pos ?hcond]
    case hcond =>
      refine ⟨by simpa using hne, List.any_eq_true.mpr ⟨l, hl, by simpa using hlr⟩⟩
    omega
  · intro fc r ctys cnf hcty hty hcnf hmem
    unfold matchScore
    dsimp only
    rw [hcty, hty, hcnf]
    have hcont : ctys.contains cnf = true := by simpa using hmem
    simp only [hcont, if_true, RT.isInstanceResource]
    omega
  · intro fc fo allLen r
    simp only [matchResource]
    cases fo with
    | AND =>
      simp only [show (FO.AND == FO.OR) = false from rfl,
        show (FO.AND == FO.AND) = true from rfl, Bool.false_and, Bool.true_and,
        Bool.false_or, beq_iff_eq]
      constructor
      · intro h
        exact Or.inr ⟨by trivial, h.symm⟩
      · rintro (⟨h, _⟩ | ⟨_, h⟩)
        · cases h
        · exact h.symm
    | OR =>
      simp only [show (FO.OR == FO.OR) = true from rfl,
        show (FO.OR == FO.AND) = false from rfl, Bool.false_and, Bool.true_and,
        Bool.or_false, decide_eq_true_eq]
      constructor
      · intro h
        exact Or.inl ⟨by trivial, h⟩
      · rintro (⟨_, h⟩ | ⟨h, _⟩)
        · exact h
        · cases h
  · rfl
  · rfl

/-- Witness for C2 at concrete inputs: the type-list scoring on `dB`, the
label scoring on `dD`, the content-format scoring on a content instance,
and the inclusion test at score 2 with total 2. -/
theorem C2_discovery_scoring_witness :
    matchScore scenarioFC dB
      = [RT.AE].length + matchScore { scenarioFC with tyF := none } dB
    ∧ matchScore scenarioFC dD
      = ["L"].length + matchScore { scenarioFC with lblF := none } dD
    ∧ matchScore { ctyF := some ["text/plain", "application/json"] }
        ⟨"i", RT.CIN, none, none, none, none, [], some 4, some "text/plain", []⟩
      = ["text/plain", "application/json"].length
        + matchScore { ctyF := none }
            ⟨"i", RT.CIN, none, none, none, none, [], some 4, some "text/plain", []⟩
    ∧ matchResource scenarioFC FO.AND (computeAllLen scenarioFC) dB = true :=
  ⟨C2_discovery_scoring.1 scenarioFC dB [RT.AE] (by decide) (by decide),
   C2_discovery_scoring.2.1 scenarioFC dD ["L"] (by decide) (by decide)
     ⟨"L", by decide, by decide⟩,
   C2_discovery_scoring.2.2.1 { ctyF := some ["text/plain", "application/json"] }
     ⟨"i", RT.CIN, none, none, none, none, [], some 4, some "text/plain", []⟩
     ["text/plain", "application/json"] "text/plain" rfl rfl rfl (by decide),
   (C2_discovery_scoring.2.2.2.1 scenarioFC FO.AND (computeAllLen scenarioFC) dB).mpr
     (Or.inr ⟨rfl, by decide⟩)⟩

/-- C1: container-limit eviction — for a container with `mni = 3` and no
byte-size limit, sequentially creating four instance children (with
increasing creation times, as sequential creation produces) leaves
exactly the three most recent instances; the earliest-created instance is
gone, and the persisted `cni` / `cbs` counters equal the count and the
summed content size of the remaining instances. -/
theorem C1_container_eviction (cnt0 : CntR) (c1 c2 c3 c4 : CinR)
    (hmni : cnt0.mni = some 3) (hmbs : cnt0.mbs = none)
    (h12 : c1.ct < c2.ct) (h23 : c2.ct < c3.ct) (h34 : c3.ct < c4.ct) :
    (([c1, c2, c3, c4].foldl createCin (cnt0, [])).2 = [c2, c3, c4])
    ∧ c1 ∉ ([c1, c2, c3, c4].foldl createCin (cnt0, [])).2
    ∧ ([c1, c2, c3, c4].foldl createCin (cnt0, [])).1.cni = 3
    ∧ ([c1, c2, c3, c4].foldl createCin (cnt0, [])).1.cbs = c2.cs + c3.cs + c4.cs
    ∧ ([c1, c2, c3, c4].foldl createCin (cnt0, [])).1.cni
        = (([c1, c2, c3, c4].foldl createCin (cnt0, [])).2.length : Int)
    ∧ ([c1, c2, c3, c4].foldl createCin (cnt0, [])).1.cbs
        = sumCs (([c1, c2, c3, c4].foldl createCin (cnt0, [])).2) := by
  obtain ⟨mni0, mbs0, cni0, cbs0⟩ := cnt0
  dsimp only at hmni hmbs
  subst hmni
  subst hmbs
  have hs1 : sortByCt [c1] = [c1] := rfl
  have hs2 : sortByCt [c1, c2] = [c1, c2] := by
    unfold sortByCt
    simp [insertByCt, h12]
  have hs3 : sortByCt [c1, c2, c3] = [c1, c2, c3] := by
    unfold sortByCt
    simp [insertByCt, h12, h23]
  have hs4 : sortByCt [c1, c2, c3, c4] = [c1, c2, c3, c4] := by
    unfold sortByCt
    simp [insertByCt, h12, h23, h34]
  have e1 : ∀ x y : Int, createCin (⟨some 3, none, x, y⟩, []) c1
      = (⟨some 3, none, 1, sumCs [c1]⟩, [c1]) := by
    intro x y
    unfold createCin cntChildAdded validateChildren
    norm_num [hs1, mniLoop]
  have e2 : ∀ x y : Int, createCin (⟨some 3, none, x, y⟩, [c1]) c2
      = (⟨some 3, none, 2, sumCs [c1, c2]⟩, [c1, c2]) := by
    intro x y
    unfold createCin cntChildAdded validateChildren
    norm_num [hs2, mniLoop]
  have e3 : ∀ x y : Int, createCin (⟨some 3, none, x, y⟩, [c1, c2]) c3
      = (⟨some 3, none, 3, sumCs [c1, c2, c3]⟩, [c1, c2, c3]) := by
    intro x y
    unfold createCin cntChildAdded validateChildren
    norm_num [hs3, mniLoop]
  have e4 : ∀ x y : Int, createCin (⟨some 3, none, x, y⟩, [c1, c2, c3]) c4
      = (⟨some 3, none, 3, sumCs [c2, c3, c4]⟩, [c2, c3, c4]) := by
    intro x y
    unfold createCin cntChildAdded validateChildren
    norm_num [hs4, mniLoop]
  have hfold : [c1, c2, c3, c4].foldl createCin (⟨some 3, none, cni0, cbs0⟩, [])
      = (⟨some 3, none, 3, sumCs [c2, c3, c4]⟩, [c2, c3, c4]) := by
    rw [List.foldl_cons, e1, List.foldl_cons, e2, List.foldl_cons, e3,
        List.foldl_cons, e4, List.foldl_nil]
  rw [hfold]
  have hne2 : c1 ≠ c2 := fun h => absurd (h ▸ h12) (lt_irrefl _)
  have hne3 : c1 ≠ c3 := fun h => absurd (h ▸ lt_trans h12 h23) (lt_irrefl _)
  have hne4 : c1 ≠ c4 := fun h =>
    absurd (h ▸ lt_trans (lt_trans h12 h23) h34) (lt_irrefl _)
  refine ⟨rfl, ?_, rfl, ?_, ?_, rfl⟩
  · simp [hne2, hne3, hne4]
  · show sumCs [c2, c3, c4] = _
    simp [sumCs]
    ring
  · show (3 : Int) = (([c2, c3, c4].length : Nat) : Int)
    norm_num

/-- Witness for C1 at a concrete input: four instances with content sizes
5, 7, 1 and 2; the survivors are the last three, `cni = 3` and
`cbs = 10`. -/
theorem C1_container_eviction_witness :
    (([⟨"i1", 1, 5⟩, ⟨"i2", 2, 7⟩, ⟨"i3", 3, 1⟩, ⟨"i4", 4, 2⟩].foldl createCin
        ((⟨some 3, none, 0, 0⟩ : CntR), [])).2
      = [⟨"i2", 2, 7⟩, ⟨"i3", 3, 1⟩, ⟨"i4", 4, 2⟩])
    ∧ (⟨"i1", 1, 5⟩ : CinR) ∉
        (([⟨"i1", 1, 5⟩, ⟨"i2", 2, 7⟩, ⟨"i3", 3, 1⟩, ⟨"i4", 4, 2⟩].foldl createCin
          ((⟨some 3, none, 0, 0⟩ : CntR), [])).2)
    ∧ (([⟨"i1", 1, 5⟩, ⟨"i2", 2, 7⟩, ⟨"i3", 3, 1⟩, ⟨"i4", 4, 2⟩].foldl createCin
        ((⟨some 3, none, 0, 0⟩ : CntR), [])).1.cni = 3)
    ∧ (([⟨"i1", 1, 5⟩, ⟨"i2", 2, 7⟩, ⟨"i3", 3, 1⟩, ⟨"i4", 4, 2⟩].foldl createCin
        ((⟨some 3, none, 0, 0⟩ : CntR), [])).1.cbs = 7 + 1 + 2) := by
  have h := C1_container_eviction ⟨some 3, none, 0, 0⟩
    ⟨"i1", 1, 5⟩ ⟨"i2", 2, 7⟩ ⟨"i3", 3, 1⟩ ⟨"i4", 4, 2⟩
    (by decide) (by decide) (by decide) (by decide) (by decide)
  exact ⟨h.1, h.2.1, h.2.2.1, h.2.2.2.1⟩
